import Mathlib

/-!
Verification of the NLP bot engine's query-understanding core against its
specification.  Python sources are shallowly embedded: dictionaries with a
fixed key set become structures, `dict.get(k, default)` on possibly-missing
keys becomes `Option` (or a default-carrying field), floats become `ℚ`
(every comparison decided here is far from any rounding boundary), and the
file system becomes explicit data passed to the functions that read it.
Python's stable `sorted(key=...)` is modelled by `List.insertionSort` with
the non-strict key comparison, which is also a stable sort, so the two
agree on every input.  Strings are compared code-point-wise exactly as in
Python; character predicates (`isdigit`, `lower`) are modelled on the
ASCII range that all inputs of interest use.
-/

namespace NlpBot

/-- Python `str.lower()` (ASCII case folding). -/
def lowerStr (s : String) : String := (s.toList.map Char.toLower).asString

/-- Python `str.strip()`: drop leading and trailing whitespace. -/
def pyStrip (s : String) : String :=
  (((s.toList.dropWhile Char.isWhitespace).reverse.dropWhile
      Char.isWhitespace).reverse).asString

/-- Splitter for Python `str.split()` with no argument: whitespace runs
separate words, empty pieces are dropped. -/
def wordsAux : List Char → List Char → List (List Char)
  | [], acc => if acc = [] then [] else [acc.reverse]
  | c :: rest, acc =>
    if c.isWhitespace then
      (if acc = [] then wordsAux rest [] else acc.reverse :: wordsAux rest [])
    else wordsAux rest (c :: acc)

/-- Python `str.split()` with no argument. -/
def splitWs (s : String) : List String :=
  (wordsAux s.toList []).map List.asString

/-- Python `str.replace(old, new)` for one-character patterns. -/
def replaceChar (a b : Char) (s : String) : String :=
  (s.toList.map (fun c => if c = a then b else c)).asString

/-- `n` occurs as a contiguous run inside `h`. -/
def isInfixChars : List Char → List Char → Bool
  | n, [] => n.isEmpty
  | n, h :: t => n.isPrefixOf (h :: t) || isInfixChars n t

/-- Python's substring test `needle in hay`. -/
def isSubstr (needle hay : String) : Bool :=
  isInfixChars needle.toList hay.toList

/-- First-occurrence deduplication; models building a Python `set` from a
list and iterating it (iteration order of a set is irrelevant wherever
this is used, so first-seen order is fixed here). -/
def dedupKeepFirst (l : List String) : List String :=
  l.foldl (fun acc x => if x ∈ acc then acc else acc ++ [x]) []

/-- Python truthiness of an optional string: `None` and `""` are falsy. -/
def truthyOpt : Option String → Bool
  | none => false
  | some s => s ≠ ""

/-! ## Entity extractor: EAN checksum validation
Source: `nlp_bot_engine/nlp/entity_extractor.py`, `is_valid_ean`. -/

/-- The Python loop
`for i, digit in enumerate(reversed(ean[:-1])): total += int(digit) * (3 if i % 2 == 0 else 1)`
rendered as an index-carrying recursion over the already-reversed digit list. -/
def eanLoopSum : Nat → List Nat → Nat
  | _, [] => 0
  | i, d :: rest => (if i % 2 = 0 then 3 else 1) * d + eanLoopSum (i + 1) rest

/-- Numeric value of an ASCII digit character (Python `int(digit)`). -/
def digitVal (c : Char) : Nat := c.toNat - '0'.toNat

/-- `is_valid_ean` from `entity_extractor.py`: digits only, length
8/12/13/14, and the modulo-10 weighted checksum must match the final
digit.  (Python `str.isdigit` is false on the empty string, which the
explicit nonemptiness conjunct reproduces.) -/
def is_valid_ean (ean : String) : Bool :=
  let ds := ean.toList
  if ds.isEmpty || !(ds.all Char.isDigit) then false
  else if !(ds.length = 8 || ds.length = 12 || ds.length = 13 || ds.length = 14) then false
  else
    let total := eanLoopSum 0 ((ds.dropLast.map digitVal).reverse)
    let check := (10 - total % 10) % 10
    check == digitVal (ds.getLastD '0')

/-- Spec-side weighted sum: alternating 3/1 weights over a digit list,
the head carrying weight 3 when the flag is `true`. The spec applies it
to the payload digits taken right-to-left. -/
def altWeightSum : Bool → List Nat → Nat
  | _, [] => 0
  | true, d :: rest => 3 * d + altWeightSum false rest
  | false, d :: rest => d + altWeightSum true rest

/-- The spec's "standard modulo-10 weighted EAN checksum test" for a
string: all digits, allowed length, and the check digit (last digit)
equals `(10 - weightedSum % 10) % 10` where the weighted sum runs over
the payload right-to-left with alternating weights 3,1,3,…. -/
def eanSpecValid (s : String) : Prop :=
  (∀ c ∈ s.toList, c.isDigit) ∧
  (s.length = 8 ∨ s.length = 12 ∨ s.length = 13 ∨ s.length = 14) ∧
  digitVal (s.toList.getLastD '0') =
    (10 - altWeightSum true ((s.toList.dropLast.map digitVal).reverse) % 10) % 10

lemma eanLoopSum_eq_altWeightSum (l : List Nat) :
    ∀ i, eanLoopSum i l = altWeightSum (i % 2 = 0) l := by
  induction l with
  | nil => intro i; cases decide (i % 2 = 0) <;> rfl
  | cons d rest ih =>
    intro i
    by_cases h : i % 2 = 0
    · have h1 : (i + 1) % 2 = 1 := by omega
      simp [eanLoopSum, altWeightSum, h, ih (i + 1), h1]
    · have h1 : (i + 1) % 2 = 0 := by omega
      have h2 : i % 2 = 1 := by omega
      simp [eanLoopSum, altWeightSum, h, ih (i + 1), h1, h2]

/-- C1: `is_valid_ean(s)` is true exactly when `s` is all digits, of
length 8, 12, 13 or 14, and its last digit equals the standard modulo-10
weighted checksum of the payload (alternating 3/1 weights right-to-left);
the real EAN-13 "4006381333931" validates and "4006381333930" does not. -/
lemma is_valid_ean_eq (s : String) :
    is_valid_ean s =
      (!(s.toList.isEmpty) && s.toList.all Char.isDigit &&
       (s.toList.length = 8 || s.toList.length = 12 ||
        s.toList.length = 13 || s.toList.length = 14) &&
       ((10 - eanLoopSum 0 ((s.toList.dropLast.map digitVal).reverse) % 10) % 10
          == digitVal (s.toList.getLastD '0'))) := by
  unfold is_valid_ean
  by_cases h1 : (s.toList.isEmpty || !(s.toList.all Char.isDigit)) = true
  · rw [if_pos h1]
    rcases Bool.or_eq_true_iff.mp h1 with h | h
    · rw [h]
      simp only [Bool.not_true, Bool.false_and]
    · have hd : s.toList.all Char.isDigit = false := by
        cases hx : s.toList.all Char.isDigit
        · rfl
        · rw [hx] at h; exact absurd h (by decide)
      rw [hd]
      simp only [Bool.and_false, Bool.false_and]
  · rw [if_neg h1]
    have hsplit := Bool.or_eq_false_iff.mp (Bool.eq_false_iff.mpr h1)
    have hempty : s.toList.isEmpty = false := hsplit.1
    have hdig : s.toList.all Char.isDigit = true := by
      have := hsplit.2
      cases hx : s.toList.all Char.isDigit
      · rw [hx] at this; exact absurd this (by decide)
      · rfl
    by_cases h2 : (!(s.toList.length = 8 || s.toList.length = 12 ||
        s.toList.length = 13 || s.toList.length = 14 : Bool)) = true
    · rw [if_pos h2]
      have hl : (s.toList.length = 8 || s.toList.length = 12 ||
          s.toList.length = 13 || s.toList.length = 14 : Bool) = false := by
        cases hx : (s.toList.length = 8 || s.toList.length = 12 ||
            s.toList.length = 13 || s.toList.length = 14 : Bool)
        · rfl
        · rw [hx] at h2; exact absurd h2 (by decide)
      rw [hl]
      simp only [Bool.and_false, Bool.false_and]
    · rw [if_neg h2]
      have hl : (s.toList.length = 8 || s.toList.length = 12 ||
          s.toList.length = 13 || s.toList.length = 14 : Bool) = true := by
        cases hx : (s.toList.length = 8 || s.toList.length = 12 ||
            s.toList.length = 13 || s.toList.length = 14 : Bool)
        · rw [hx] at h2; exact absurd h2 (by decide)
        · rfl
      rw [hempty, hdig, hl]
      simp only [Bool.not_false, Bool.true_and]

theorem is_valid_ean_correct :
    (∀ s : String, is_valid_ean s = true ↔ eanSpecValid s) ∧
    is_valid_ean "4006381333931" = true ∧
    is_valid_ean "4006381333930" = false := by
  refine ⟨?_, by rfl, by rfl⟩
  intro s
  have hsl : s.length = s.toList.length := rfl
  have hflag : (decide ((0 : Nat) % 2 = 0)) = true := rfl
  rw [is_valid_ean_eq]
  simp only [Bool.and_eq_true, Bool.or_eq_true, Bool.not_eq_true',
    beq_iff_eq, decide_eq_true_eq, List.all_eq_true, eanSpecValid]
  rw [eanLoopSum_eq_altWeightSum, hflag]
  constructor
  · rintro ⟨⟨⟨_, hdig⟩, hlen⟩, hchk⟩
    exact ⟨fun c hc => hdig c hc, by rw [hsl]; tauto, hchk.symm⟩
  · rintro ⟨hdig, hlen, hchk⟩
    rw [hsl] at hlen
    have hne : s.toList.isEmpty = false := by
      cases h : s.toList with
      | nil => rw [h] at hlen; simp at hlen
      | cons a t => rfl
    exact ⟨⟨⟨hne, fun c hc => hdig c hc⟩, by tauto⟩, hchk.symm⟩

/-! ## Context manager
Source: `nlp_bot_engine/nlp/context_manager.py`.  The session context is a
caller-owned dict; its five recognised keys become fields (a missing key
and its default value are not distinguishable by any reader, so lists
default to `[]` and scalar keys to `none`). -/

structure Ctx where
  active_product_id : Option String := none
  mentioned_products : List String := []
  previous_intent : Option String := none
  last_mentioned_property : Option String := none
  query_history : List String := []
  deriving Repr, DecidableEq

/-- The `new_info` argument of `update_context`; `none` models a key that
is absent from the dict (the source tests key presence, not truthiness). -/
structure NewInfo where
  product_id : Option String := none
  property : Option String := none
  primary_intent : Option String := none
  query : Option String := none
  deriving Repr, DecidableEq

/-- `update_context` from `context_manager.py`: returns an updated copy;
sets the active product and dedup-appends it to `mentioned_products`,
overwrites the last property and previous intent, appends the query to
`query_history` and trims the history to its last 10 entries. -/
def update_context (current_context : Ctx) (new_info : NewInfo) : Ctx :=
  let c1 :=
    match new_info.product_id with
    | none => current_context
    | some pid =>
      let mentioned := current_context.mentioned_products
      { current_context with
        active_product_id := some pid
        mentioned_products := if pid ∈ mentioned then mentioned else mentioned ++ [pid] }
  let c2 :=
    match new_info.property with
    | none => c1
    | some p => { c1 with last_mentioned_property := some p }
  let c3 :=
    match new_info.primary_intent with
    | none => c2
    | some i => { c2 with previous_intent := some i }
  match new_info.query with
  | none => c3
  | some q =>
    let h := c3.query_history ++ [q]
    { c3 with query_history := if h.length > 10 then h.drop (h.length - 10) else h }

/-- The empty session context created at session start. -/
def emptyCtx : Ctx := {}

lemma update_context_history_le (ctx : Ctx) (info : NewInfo)
    (h : ctx.query_history.length ≤ 10) :
    (update_context ctx info).query_history.length ≤ 10 := by
  unfold update_context
  cases hp : info.product_id <;> cases hq : info.query <;>
    cases hpr : info.property <;> cases hpi : info.primary_intent <;>
      simp_all <;> (split <;> simp [List.length_drop] <;> omega)

/-- C3: starting from the empty session context, every sequence of
`update_context` calls keeps `query_history` within 10 entries, and once
the bound is reached a further query drops the oldest entry (FIFO). -/
theorem update_context_history_bound :
    (∀ infos : List NewInfo,
      ((infos.foldl update_context emptyCtx).query_history.length ≤ 10)) ∧
    (∀ (ctx : Ctx) (info : NewInfo) (q : String),
      ctx.query_history.length = 10 → info.query = some q →
      (update_context ctx info).query_history =
        ctx.query_history.tail ++ [q]) := by
  constructor
  · intro infos
    have main : ∀ (l : List NewInfo) (c : Ctx), c.query_history.length ≤ 10 →
        (l.foldl update_context c).query_history.length ≤ 10 := by
      intro l
      induction l with
      | nil => intro c hc; exact hc
      | cons i rest ih =>
        intro c hc
        exact ih _ (update_context_history_le c i hc)
    exact main infos emptyCtx (by simp [emptyCtx])
  · intro ctx info q hlen hq
    unfold update_context
    cases hp : info.product_id <;> cases hpr : info.property <;>
      cases hpi : info.primary_intent <;> simp_all <;>
      · rcases hql : ctx.query_history with _ | ⟨a, t⟩
        · rw [hql] at hlen; simp at hlen
        · simp

/-- Witness for C3: a twelfth query pushed into a full history keeps the
bound and drops the oldest entry. -/
theorem update_context_history_bound_witness :
    (((List.range 12).map
        (fun i => ({ query := some (toString i) } : NewInfo))).foldl
          update_context emptyCtx).query_history.length ≤ 10 ∧
    (update_context
        { query_history := ["0","1","2","3","4","5","6","7","8","9"] }
        { query := some "x" }).query_history =
      ["1","2","3","4","5","6","7","8","9"] ++ ["x"] := by
  exact ⟨update_context_history_bound.1 _,
    update_context_history_bound.2
      { query_history := ["0","1","2","3","4","5","6","7","8","9"] }
      { query := some "x" } "x" (by decide) rfl⟩

/-! ## Entity extractor: overlap merge
Source: `nlp_bot_engine/nlp/entity_extractor.py`,
`merge_overlapping_entities`.  An entity dict always carries
`type/text/start/end/confidence/source` and optionally `product_id` and
`is_contextual_reference`; `end` is a Lean keyword, so the field is named
`stop`. -/

structure Entity where
  type_ : String
  text : String
  start : Int
  stop : Int
  confidence : ℚ
  source : String
  product_id : Option String := none
  is_contextual_reference : Bool := false
  deriving Repr, DecidableEq

/-- The sort key `(start, -len(text))` as a non-strict comparison: this is
the stable ascending sort of Python's `sorted(entities, key=lambda e:
(e["start"], -len(e["text"])))` (both sorts are stable, so they produce
the same list). -/
def entSortLE (a b : Entity) : Prop :=
  a.start < b.start ∨ (a.start = b.start ∧ b.text.length ≤ a.text.length)

instance : DecidableRel entSortLE := fun a b => by
  unfold entSortLE; infer_instance

instance : IsTotal Entity entSortLE := ⟨by intro a b; unfold entSortLE; omega⟩

instance : IsTrans Entity entSortLE := ⟨by intro a b c; unfold entSortLE; omega⟩

def sortEntities (entities : List Entity) : List Entity :=
  List.insertionSort entSortLE entities

/-- The walk's overlap test:
`current_end >= next_start and next_start >= 0 and current_end >= 0`. -/
def entOverlap (current next : Entity) : Prop :=
  current.stop ≥ next.start ∧ next.start ≥ 0 ∧ current.stop ≥ 0

instance : DecidablePred fun p : Entity × Entity => entOverlap p.1 p.2 := fun p => by
  unfold entOverlap; infer_instance

instance entOverlapDec (a b : Entity) : Decidable (entOverlap a b) := by
  unfold entOverlap; infer_instance

/-- The left-to-right walk of `merge_overlapping_entities`: on overlap the
higher-confidence entity survives (ties keep the current one), otherwise
the current entity is emitted. -/
def mergeWalk : Entity → List Entity → List Entity
  | current, [] => [current]
  | current, e :: rest =>
    if entOverlap current e then
      if e.confidence > current.confidence then mergeWalk e rest
      else mergeWalk current rest
    else current :: mergeWalk e rest

/-- `merge_overlapping_entities` from `entity_extractor.py`. -/
def merge_overlapping_entities (entities : List Entity) : List Entity :=
  match sortEntities entities with
  | [] => []
  | c :: rest => mergeWalk c rest

lemma mergeWalk_sublist : ∀ (rest : List Entity) (c : Entity),
    (mergeWalk c rest).Sublist (c :: rest) := by
  intro rest
  induction rest with
  | nil => intro c; simp [mergeWalk]
  | cons e rest ih =>
    intro c
    unfold mergeWalk
    by_cases hov : entOverlap c e
    · rw [if_pos hov]
      by_cases hconf : e.confidence > c.confidence
      · rw [if_pos hconf]
        exact (ih e).trans (List.sublist_cons_self c (e :: rest))
      · rw [if_neg hconf]
        exact (ih c).trans (List.Sublist.cons₂ c (List.sublist_cons_self e rest))
    · rw [if_neg hov]
      exact List.Sublist.cons₂ c (ih e)

lemma mergeWalk_ne_nil : ∀ (rest : List Entity) (c : Entity),
    mergeWalk c rest ≠ [] := by
  intro rest
  induction rest with
  | nil => intro c; simp [mergeWalk]
  | cons e rest ih =>
    intro c
    unfold mergeWalk
    by_cases hov : entOverlap c e
    · rw [if_pos hov]
      by_cases hconf : e.confidence > c.confidence
      · rw [if_pos hconf]; exact ih e
      · rw [if_neg hconf]; exact ih c
    · rw [if_neg hov]; simp

lemma mergeWalk_head : ∀ (rest : List Entity) (c : Entity) (d : Entity),
    d ∈ (mergeWalk c rest).head? → d = c ∨ d ∈ rest := by
  intro rest
  induction rest with
  | nil => intro c d hd; simp [mergeWalk] at hd; exact Or.inl hd.symm
  | cons e rest ih =>
    intro c d hd
    unfold mergeWalk at hd
    by_cases hov : entOverlap c e
    · rw [if_pos hov] at hd
      by_cases hconf : e.confidence > c.confidence
      · rw [if_pos hconf] at hd
        rcases ih e d hd with h | h
        · exact Or.inr (by simp [h])
        · exact Or.inr (by simp [h])
      · rw [if_neg hconf] at hd
        rcases ih c d hd with h | h
        · exact Or.inl h
        · exact Or.inr (by simp [h])
    · rw [if_neg hov] at hd
      simp at hd
      exact Or.inl hd.symm

lemma mergeWalk_head_of_neg_stop (rest : List Entity) (c : Entity)
    (hc : c.stop < 0) : ∃ t, mergeWalk c rest = c :: t := by
  cases rest with
  | nil => exact ⟨[], rfl⟩
  | cons e rest =>
    have hov : ¬ entOverlap c e := by
      unfold entOverlap; omega
    exact ⟨mergeWalk e rest, by simp only [mergeWalk, if_neg hov]⟩

/-- Consecutive entities surviving the walk never satisfy the overlap
test, provided no entity mixes a negative start with a non-negative end
(true of every entity the extractor builds). -/
lemma mergeWalk_chain : ∀ (rest : List Entity) (c : Entity),
    List.Sorted entSortLE (c :: rest) →
    (∀ x ∈ c :: rest, x.start < 0 → x.stop < 0) →
    List.Chain' (fun a b => ¬ entOverlap a b) (mergeWalk c rest) := by
  intro rest
  induction rest with
  | nil => intro c _ _; simp [mergeWalk]
  | cons e rest ih =>
    intro c hsorted hH
    have hsorted_tail : List.Sorted entSortLE (e :: rest) := hsorted.of_cons
    have hsorted_skip : List.Sorted entSortLE (c :: rest) :=
      hsorted.sublist (List.Sublist.cons₂ c (List.sublist_cons_self e rest))
    have hH_tail : ∀ x ∈ e :: rest, x.start < 0 → x.stop < 0 := by
      intro x hx; exact hH x (by simp [hx])
    have hH_skip : ∀ x ∈ c :: rest, x.start < 0 → x.stop < 0 := by
      intro x hx
      rcases List.mem_cons.mp hx with h | h
      · exact hH x (by simp [h])
      · exact hH x (by simp [h])
    unfold mergeWalk
    by_cases hov : entOverlap c e
    · rw [if_pos hov]
      by_cases hconf : e.confidence > c.confidence
      · rw [if_pos hconf]; exact ih e hsorted_tail hH_tail
      · rw [if_neg hconf]; exact ih c hsorted_skip hH_skip
    · rw [if_neg hov]
      rw [List.chain'_cons']
      refine ⟨?_, ih e hsorted_tail hH_tail⟩
      intro d hd
      intro hcd
      have hcases : c.stop < e.start ∨ e.start < 0 ∨ c.stop < 0 := by
        unfold entOverlap at hov; omega
      rcases mergeWalk_head rest e d hd with hde | hdr
      · subst hde; exact hov hcd
      · -- d comes from rest, so sortedness gives e.start ≤ d.start
        have hle : entSortLE e d := (List.sorted_cons.mp hsorted_tail).1 d hdr
        have hstart : e.start ≤ d.start := by
          unfold entSortLE at hle; omega
        unfold entOverlap at hcd
        rcases hcases with h | h | h
        · omega
        · -- e.start < 0 forces e.stop < 0, so e is never replaced and the
          -- walk's head is e itself
          have hestop : e.stop < 0 := hH e (by simp) (by omega)
          rcases mergeWalk_head_of_neg_stop rest e hestop with ⟨t, ht⟩
          rw [ht] at hd
          have hde : e = d := by simpa using hd
          subst hde
          exact hov ⟨hcd.1, hcd.2.1, hcd.2.2⟩
        · omega

lemma mergeWalk_of_chain : ∀ (rest : List Entity) (c : Entity),
    List.Chain' (fun a b => ¬ entOverlap a b) (c :: rest) →
    mergeWalk c rest = c :: rest := by
  intro rest
  induction rest with
  | nil => intro c _; rfl
  | cons e rest ih =>
    intro c hchain
    have h1 : ¬ entOverlap c e := (List.chain'_cons.mp hchain).1
    have h2 : List.Chain' (fun a b => ¬ entOverlap a b) (e :: rest) :=
      (List.chain'_cons.mp hchain).2
    unfold mergeWalk
    rw [if_neg h1, ih e h2]

/-- C2 (amended): `merge_overlapping_entities` is idempotent on every
entity list in which no entity has a negative start together with a
non-negative end — in particular on everything the extraction passes
produce (positioned entities have both positions ≥ 0, contextual ones
have start = end = −1). -/
theorem merge_overlapping_entities_idempotent (es : List Entity)
    (H : ∀ e ∈ es, e.start < 0 → e.stop < 0) :
    merge_overlapping_entities (merge_overlapping_entities es) =
      merge_overlapping_entities es := by
  have merge_def : ∀ l : List Entity, merge_overlapping_entities l =
      (match sortEntities l with
       | [] => []
       | c :: rest => mergeWalk c rest) := fun l => rfl
  cases hs : sortEntities es with
  | nil =>
    have h1 : merge_overlapping_entities es = [] := by rw [merge_def es, hs]
    rw [h1]
    rfl
  | cons c rest =>
    have h1 : merge_overlapping_entities es = mergeWalk c rest := by
      rw [merge_def es, hs]
    have hsorted : List.Sorted entSortLE (c :: rest) := by
      rw [← hs]; exact List.sorted_insertionSort entSortLE es
    have hmem : ∀ x ∈ c :: rest, x ∈ es := by
      intro x hx
      have hx2 : x ∈ sortEntities es := by rw [hs]; exact hx
      exact (List.perm_insertionSort entSortLE es).mem_iff.mp hx2
    have hH : ∀ x ∈ c :: rest, x.start < 0 → x.stop < 0 :=
      fun x hx => H x (hmem x hx)
    have hout_sorted : List.Sorted entSortLE (mergeWalk c rest) :=
      hsorted.sublist (mergeWalk_sublist rest c)
    have hout_chain : List.Chain' (fun a b => ¬ entOverlap a b) (mergeWalk c rest) :=
      mergeWalk_chain rest c hsorted hH
    have hfix : sortEntities (mergeWalk c rest) = mergeWalk c rest :=
      hout_sorted.insertionSort_eq
    rw [h1, merge_def (mergeWalk c rest), hfix]
    cases hout : mergeWalk c rest with
    | nil => exact absurd hout (mergeWalk_ne_nil rest c)
    | cons d t =>
      rw [hout] at hout_chain
      exact mergeWalk_of_chain t d hout_chain

/-- Witness for C2 (amended): a well-formed three-entity list (two
positioned, one contextual) on which the merge is idempotent. -/
theorem merge_overlapping_entities_idempotent_witness :
    merge_overlapping_entities (merge_overlapping_entities
      [⟨"PRODUCT", "abc", 0, 3, mkRat 9 10, "regex", none, false⟩,
       ⟨"PRODUCT", "bc", 1, 3, mkRat 8 10, "spacy", none, false⟩,
       ⟨"PRODUCT", "Produkt 1", -1, -1, mkRat 8 10, "context", some "1", true⟩]) =
    merge_overlapping_entities
      [⟨"PRODUCT", "abc", 0, 3, mkRat 9 10, "regex", none, false⟩,
       ⟨"PRODUCT", "bc", 1, 3, mkRat 8 10, "spacy", none, false⟩,
       ⟨"PRODUCT", "Produkt 1", -1, -1, mkRat 8 10, "context", some "1", true⟩] := by
  apply merge_overlapping_entities_idempotent
  decide

/-- Counterexample to C2 as stated: an entity with a negative start but a
non-negative end survives the first merge next to an entity it overlaps,
and the second merge removes that neighbour. -/
theorem merge_overlapping_entities_not_idempotent :
    merge_overlapping_entities (merge_overlapping_entities
      [⟨"PRODUCT", "ab", -1, 100, mkRat 9 10, "spacy", none, false⟩,
       ⟨"PRODUCT", "a", -1, 50, mkRat 1 10, "spacy", none, false⟩,
       ⟨"PRODUCT", "c", 3, 10, mkRat 1 2, "regex", none, false⟩]) ≠
    merge_overlapping_entities
      [⟨"PRODUCT", "ab", -1, 100, mkRat 9 10, "spacy", none, false⟩,
       ⟨"PRODUCT", "a", -1, 50, mkRat 1 10, "spacy", none, false⟩,
       ⟨"PRODUCT", "c", 3, 10, mkRat 1 2, "regex", none, false⟩] := by
  decide

/-! ## Intent analyzer: score combination and primary intent
Source: `nlp_bot_engine/nlp/intent_analyzer.py`.  A Python dict of intent
scores becomes an association list in insertion order (Python dicts
iterate in insertion order and cannot hold duplicate keys). -/

/-- Python `scores.get(intent, 0.0)`. -/
def getScore (m : List (String × ℚ)) (intent : String) : ℚ :=
  (m.lookup intent).getD 0

/-- `combine_intent_scores`: weighted sum over the keys of the keyword
map with fixed weights keyword 0.35, semantic 0.30, entity 0.25,
context 0.10. -/
def combine_intent_scores (keyword_intents semantic_intents entity_intents
    context_intents : List (String × ℚ)) : List (String × ℚ) :=
  keyword_intents.map (fun p =>
    (p.1,
      getScore keyword_intents p.1 * mkRat 35 100 +
      getScore semantic_intents p.1 * mkRat 30 100 +
      getScore entity_intents p.1 * mkRat 25 100 +
      getScore context_intents p.1 * mkRat 10 100))

/-- Python `max(items, key=lambda x: x[1])`: the first item attaining the
maximal score (replacement only on a strictly greater score). -/
def maxPair (x : String × ℚ) (xs : List (String × ℚ)) : String × ℚ :=
  xs.foldl (fun cur p => if p.2 > cur.2 then p else cur) x

/-- Scores descending: the non-strict flip of ≤ on ℚ, giving the stable
model of Python `sorted(values, reverse=True)`. -/
def qGE (a b : ℚ) : Prop := b ≤ a

instance : DecidableRel qGE := fun a b => by unfold qGE; infer_instance

instance : IsTotal ℚ qGE := ⟨fun a b => (le_total b a).imp id id⟩

instance : IsTrans ℚ qGE := ⟨fun _ _ _ h1 h2 => le_trans h2 h1⟩

def sortScoresDesc (vals : List ℚ) : List ℚ := List.insertionSort qGE vals

/-- `determine_primary_intent`: empty map defaults to ("summary", 0.1);
otherwise the argmax is taken, and its score is damped (×0.8) when the
margin over the runner-up is below 0.1, boosted (×1.1, capped at 1) when
the margin exceeds 0.3, and returned unchanged otherwise or when the map
has a single entry. -/
def determine_primary_intent (intent_scores : List (String × ℚ)) : String × ℚ :=
  match intent_scores with
  | [] => ("summary", mkRat 1 10)
  | x :: xs =>
    let primary := maxPair x xs
    let highest_score := primary.2
    let sorted_scores := sortScoresDesc ((x :: xs).map Prod.snd)
    let confidence :=
      match sorted_scores with
      | _ :: second :: _ =>
        let margin := highest_score - second
        if margin < mkRat 1 10 then highest_score * mkRat 8 10
        else if margin > mkRat 3 10 then min 1 (highest_score * mkRat 11 10)
        else highest_score
      | _ => highest_score
    (primary.1, confidence)

lemma maxPair_cons (x p : String × ℚ) (rest : List (String × ℚ)) :
    maxPair x (p :: rest) = maxPair (if p.2 > x.2 then p else x) rest := rfl

lemma determine_primary_intent_cons (x : String × ℚ) (xs : List (String × ℚ)) :
    determine_primary_intent (x :: xs) =
      ((maxPair x xs).1,
        match sortScoresDesc ((x :: xs).map Prod.snd) with
        | _ :: second :: _ =>
          if (maxPair x xs).2 - second < mkRat 1 10 then
            (maxPair x xs).2 * mkRat 8 10
          else if (maxPair x xs).2 - second > mkRat 3 10 then
            min 1 ((maxPair x xs).2 * mkRat 11 10)
          else (maxPair x xs).2
        | _ => (maxPair x xs).2) := rfl

lemma maxPair_mem : ∀ (xs : List (String × ℚ)) (x : String × ℚ),
    maxPair x xs = x ∨ maxPair x xs ∈ xs := by
  intro xs
  induction xs with
  | nil => intro x; exact Or.inl rfl
  | cons p rest ih =>
    intro x
    rw [maxPair_cons]
    by_cases h : p.2 > x.2
    · rw [if_pos h]
      rcases ih p with h1 | h1
      · exact Or.inr (by rw [h1]; simp)
      · exact Or.inr (List.mem_cons_of_mem p h1)
    · rw [if_neg h]
      rcases ih x with h1 | h1
      · exact Or.inl h1
      · exact Or.inr (List.mem_cons_of_mem p h1)

lemma maxPair_ge : ∀ (xs : List (String × ℚ)) (x : String × ℚ),
    ∀ q ∈ x :: xs, q.2 ≤ (maxPair x xs).2 := by
  intro xs
  induction xs with
  | nil =>
    intro x q hq
    rcases List.mem_singleton.mp hq with rfl
    exact le_refl _
  | cons p rest ih =>
    intro x q hq
    rw [maxPair_cons]
    have hxle : x.2 ≤ (if p.2 > x.2 then p else x).2 := by
      by_cases h : p.2 > x.2
      · rw [if_pos h]; exact le_of_lt h
      · rw [if_neg h]
    have hple : p.2 ≤ (if p.2 > x.2 then p else x).2 := by
      by_cases h : p.2 > x.2
      · rw [if_pos h]
      · rw [if_neg h]; exact not_lt.mp h
    have hhead : ((if p.2 > x.2 then p else x)).2 ≤
        (maxPair (if p.2 > x.2 then p else x) rest).2 :=
      ih _ _ (by simp)
    rcases List.mem_cons.mp hq with h | h
    · rw [h]; exact le_trans hxle hhead
    · rcases List.mem_cons.mp h with h2 | h2
      · rw [h2]; exact le_trans hple hhead
      · exact ih _ q (List.mem_cons_of_mem _ h2)

lemma lookup_map_key (f : String → ℚ) :
    ∀ (l : List (String × ℚ)) (i : String), i ∈ l.map Prod.fst →
      (l.map (fun p => (p.1, f p.1))).lookup i = some (f i) := by
  intro l
  induction l with
  | nil => intro i hi; simp at hi
  | cons p rest ih =>
    intro i hi
    rw [List.map_cons, List.lookup_cons]
    by_cases h : i = p.1
    · subst h; simp
    · have hne : (i == p.1) = false := beq_false_of_ne h
      rw [hne]
      apply ih
      rcases List.mem_map.mp hi with ⟨q, hq, hqi⟩
      rcases List.mem_cons.mp hq with rfl | hq1
      · exact absurd hqi.symm h
      · exact List.mem_map.mpr ⟨q, hq1, hqi⟩

/-- C4 (amended): each combined score is the weighted sum
0.35·keyword + 0.30·semantic + 0.25·entity + 0.10·context; the primary
intent is an argmax of the map; the confidence is the winning score
multiplied by 0.8 when the margin over the second-highest score is
< 0.1, multiplied by 1.1 and capped at 1.0 when the margin is > 0.3, and
left unadjusted when the map has fewer than two entries; an empty map
yields ("summary", 0.1). -/
theorem intent_scores_correct :
    (∀ (kw sem ent ctx : List (String × ℚ)) (i : String),
      i ∈ kw.map Prod.fst →
      (combine_intent_scores kw sem ent ctx).lookup i =
        some ((35/100 : ℚ) * getScore kw i + (30/100) * getScore sem i +
              (25/100) * getScore ent i + (10/100) * getScore ctx i)) ∧
    determine_primary_intent [] = ("summary", (1/10 : ℚ)) ∧
    (∀ m : List (String × ℚ), m ≠ [] →
      ∃ h : ℚ,
        ((determine_primary_intent m).1, h) ∈ m ∧
        (∀ q ∈ m, q.2 ≤ h) ∧
        (m.length = 1 → (determine_primary_intent m).2 = h) ∧
        (2 ≤ m.length → ∃ s : ℚ,
          s ∈ (m.map Prod.snd).erase h ∧
          (∀ y ∈ (m.map Prod.snd).erase h, y ≤ s) ∧
          (determine_primary_intent m).2 =
            (if h - s < (1/10 : ℚ) then h * (8/10)
             else if h - s > (3/10 : ℚ) then min 1 (h * (11/10))
             else h))) := by
  have e35 : mkRat 35 100 = (35/100 : ℚ) := by
    rw [Rat.mkRat_eq_divInt]; norm_num [Rat.divInt_eq_div]
  have e30 : mkRat 30 100 = (30/100 : ℚ) := by
    rw [Rat.mkRat_eq_divInt]; norm_num [Rat.divInt_eq_div]
  have e25 : mkRat 25 100 = (25/100 : ℚ) := by
    rw [Rat.mkRat_eq_divInt]; norm_num [Rat.divInt_eq_div]
  have e10 : mkRat 10 100 = (10/100 : ℚ) := by
    rw [Rat.mkRat_eq_divInt]; norm_num [Rat.divInt_eq_div]
  have e110 : mkRat 1 10 = (1/10 : ℚ) := by
    rw [Rat.mkRat_eq_divInt]; norm_num [Rat.divInt_eq_div]
  have e310 : mkRat 3 10 = (3/10 : ℚ) := by
    rw [Rat.mkRat_eq_divInt]; norm_num [Rat.divInt_eq_div]
  have e810 : mkRat 8 10 = (8/10 : ℚ) := by
    rw [Rat.mkRat_eq_divInt]; norm_num [Rat.divInt_eq_div]
  have e1110 : mkRat 11 10 = (11/10 : ℚ) := by
    rw [Rat.mkRat_eq_divInt]; norm_num [Rat.divInt_eq_div]
  refine ⟨?_, ?_, ?_⟩
  · intro kw sem ent ctx i hi
    unfold combine_intent_scores
    refine (lookup_map_key
      (fun j => getScore kw j * mkRat 35 100 + getScore sem j * mkRat 30 100 +
        getScore ent j * mkRat 25 100 + getScore ctx j * mkRat 10 100)
      kw i hi).trans ?_
    congr 1
    rw [e35, e30, e25, e10]
    ring
  · unfold determine_primary_intent
    rw [e110]
  · intro m hm
    rcases List.exists_cons_of_ne_nil hm with ⟨x, xs, rfl⟩
    refine ⟨(maxPair x xs).2, ?_, ?_, ?_, ?_⟩
    · have hp := maxPair_mem xs x
      have : (maxPair x xs).1 = (determine_primary_intent (x :: xs)).1 := rfl
      rw [← this]
      rcases hp with h | h
      · rw [h]; simp
      · exact List.mem_cons_of_mem x (by simpa using h)
    · exact maxPair_ge xs x
    · intro hlen
      have hxs : xs = [] := by
        cases xs with
        | nil => rfl
        | cons a t => simp at hlen
      subst hxs
      rfl
    · intro hlen
      -- the sorted score list has at least two elements
      have hsp : List.Perm (sortScoresDesc ((x :: xs).map Prod.snd))
          ((x :: xs).map Prod.snd) :=
        List.perm_insertionSort qGE _
      have hss : List.Sorted qGE (sortScoresDesc ((x :: xs).map Prod.snd)) :=
        List.sorted_insertionSort qGE _
      have hlen2 : 2 ≤ (sortScoresDesc ((x :: xs).map Prod.snd)).length := by
        rw [hsp.length_eq, List.length_map]
        exact hlen
      cases hsl : sortScoresDesc ((x :: xs).map Prod.snd) with
      | nil => rw [hsl] at hlen2; simp at hlen2
      | cons a t =>
      cases t with
      | nil => rw [hsl] at hlen2; simp at hlen2
      | cons s t' =>
        rw [hsl] at hsp hss
        -- the head of the sorted list is exactly the maximal score
        have hmax := maxPair_ge xs x
        have ha_mem : a ∈ (x :: xs).map Prod.snd := hsp.mem_iff.mp (by simp)
        have ha_le : a ≤ (maxPair x xs).2 := by
          rcases List.mem_map.mp ha_mem with ⟨q, hq, rfl⟩
          exact hmax q hq
        have hh_mem : (maxPair x xs).2 ∈ (x :: xs).map Prod.snd := by
          rcases maxPair_mem xs x with h | h
          · rw [h]; simp
          · exact List.mem_map.mpr ⟨maxPair x xs, List.mem_cons_of_mem x h, rfl⟩
        have hh_in_sorted : (maxPair x xs).2 ∈ a :: s :: t' :=
          hsp.symm.mem_iff.mp hh_mem
        have hle_a : (maxPair x xs).2 ≤ a := by
          rcases List.mem_cons.mp hh_in_sorted with h | h
          · exact h.le
          · have := (List.sorted_cons.mp hss).1 _ h
            exact this
        have ha : a = (maxPair x xs).2 := le_antisymm ha_le hle_a
        -- the tail is a permutation of the scores minus one copy of the max
        have htail : List.Perm (s :: t') (((x :: xs).map Prod.snd).erase a) :=
          (List.cons_perm_iff_perm_erase.mp hsp).2
        refine ⟨s, ?_, ?_, ?_⟩
        · rw [← ha]
          exact htail.mem_iff.mp (by simp)
        · intro y hy
          rw [← ha] at hy
          have hy2 : y ∈ s :: t' := htail.symm.mem_iff.mp hy
          rcases List.mem_cons.mp hy2 with rfl | hy3
          · exact le_refl y
          · exact (List.sorted_cons.mp (List.sorted_cons.mp hss).2).1 y hy3
        · have hdet : (determine_primary_intent (x :: xs)).2 =
              (if (maxPair x xs).2 - s < mkRat 1 10 then
                 (maxPair x xs).2 * mkRat 8 10
               else if (maxPair x xs).2 - s > mkRat 3 10 then
                 min 1 ((maxPair x xs).2 * mkRat 11 10)
               else (maxPair x xs).2) := by
            rw [determine_primary_intent_cons, hsl]
          rw [hdet, e110, e310, e810, e1110]

/-- Witness for C4 (amended): a two-entry map with a clear winner; the
margin 0.55 exceeds 0.3 so the confidence is boosted and capped. -/
theorem intent_scores_correct_witness :
    (combine_intent_scores [("technical", 1)] [] [] [] ).lookup "technical" =
      some ((35/100 : ℚ) * 1 + (30/100) * 0 + (25/100) * 0 + (10/100) * 0) ∧
    (∃ h : ℚ,
      ((determine_primary_intent [("technical", (9/10 : ℚ)), ("summary", (35/100 : ℚ))]).1, h) ∈
        [("technical", (9/10 : ℚ)), ("summary", (35/100 : ℚ))] ∧
      (∀ q ∈ [("technical", (9/10 : ℚ)), ("summary", (35/100 : ℚ))], q.2 ≤ h)) := by
  constructor
  · have := intent_scores_correct.1 [("technical", 1)] [] [] [] "technical" (by simp)
    rw [this]
    simp [getScore]
  · rcases intent_scores_correct.2.2 [("technical", (9/10 : ℚ)), ("summary", (35/100 : ℚ))]
      (by simp) with ⟨h, h1, h2, _⟩
    exact ⟨h, h1, h2⟩

/-- Counterexample to C4 as stated: with two entries sharing one
distinct score, the claim's "fewer than two distinct scores ⟹
unadjusted" predicts confidence 1/2, but the code compares the number of
entries, finds a zero margin and damps the confidence to 2/5. -/
theorem determine_primary_intent_ties_adjusted :
    (determine_primary_intent [("technical", (1/2 : ℚ)), ("summary", (1/2 : ℚ))]).2 =
      (2/5 : ℚ) ∧ (2/5 : ℚ) ≠ (1/2 : ℚ) := by
  constructor
  · unfold determine_primary_intent maxPair sortScoresDesc
    norm_num [List.insertionSort, List.orderedInsert, qGE,
      Rat.mkRat_eq_divInt, Rat.divInt_eq_div]
  · norm_num

/-! ## Data manager
Source: `nlp_bot_engine/core/data_manager copy.py`.  The on-disk corpus is
passed explicitly: a product's JSONL file is `none` when missing,
otherwise a list of lines, each line being `some record` when
`json.loads` succeeds and `none` when it raises.  JSON objects with a
known field set become structures whose fields are `Option`s (a missing
key reads as the `.get` default at each use site). -/

structure SpecRec where
  category : Option String := none
  name : Option String := none
  raw_value : Option String := none
  unit : Option String := none
  importance : Option String := none
  deriving Repr, DecidableEq

structure RelRec where
  relation_type : Option String := none
  related_product : Option String := none
  numeric_ids : List String := []
  confidence : ℚ := 0
  deriving Repr, DecidableEq

structure IdRec where
  type_ : Option String := none
  value : Option String := none
  deriving Repr, DecidableEq

structure KeySpec where
  name : Option String := none
  value : Option String := none
  unit : Option String := none
  category : Option String := none
  deriving Repr, DecidableEq

structure KeyCompat where
  type_ : Option String := none
  related_product : Option String := none
  has_product_id : Bool := false
  numeric_ids : List String := []
  deriving Repr, DecidableEq

/-- A parsed `summary.jsonl` object (the `generated_at` timestamp is
never read by any formatter and is omitted). -/
structure Summary where
  product_id : Option String := none
  product_name : Option String := none
  description : Option String := none
  key_specifications : List KeySpec := []
  key_compatibility : List KeyCompat := []
  identifiers : List (String × List String) := []
  deriving Repr, DecidableEq

/-- The per-product directory contents. -/
structure ProductFiles where
  technical_specs : Option (List (Option SpecRec)) := none
  compatibility : Option (List (Option RelRec)) := none
  summary_line : Option (Option Summary) := none
  article_info : Option (List (Option IdRec)) := none
  full_info : Option String := none
  deriving Repr, DecidableEq

/-- The DataManager's state: product directories plus the index snapshot
loaded at construction (only the indices the claims exercise). -/
structure DataM where
  products : List (String × ProductFiles) := []
  text_search_index : List (String × List String) := []
  product_names : List (String × Option String) := []
  deriving Repr, DecidableEq

/-- Python dict assignment `m[k] = v`: overwrite in place, append new
keys at the end (dicts keep first-insertion position on overwrite). -/
def dictInsert (m : List (String × String)) (k v : String) :
    List (String × String) :=
  if (m.lookup k).isSome
  then m.map (fun p => if p.1 = k then (k, v) else p)
  else m ++ [(k, v)]

/-- The `name_to_id_map` built in `DataManager.__init__`: lowercased
product names from the `product_names` index, skipping empty names. -/
def name_to_id_map (dm : DataM) : List (String × String) :=
  dm.product_names.foldl
    (fun acc p =>
      let name := lowerStr ((p.2).getD "")
      if name ≠ "" then dictInsert acc name p.1 else acc) []

/-- `defaultdict(list)` grouping: first-seen key order, values appended
within each key in input order. -/
def groupByFirst {α : Type} (key : α → String) (l : List α) :
    List (String × List α) :=
  l.foldl
    (fun acc x =>
      let k := key x
      if (acc.lookup k).isSome
      then acc.map (fun p => if p.1 = k then (p.1, p.2 ++ [x]) else p)
      else acc ++ [(k, [x])]) []

def lookupProduct (dm : DataM) (pid : String) : Option ProductFiles :=
  dm.products.lookup pid

/-- `get_product_name`: the name from the `product_names` index entry,
else a generic Swedish fallback. -/
def get_product_name (dm : DataM) (product_id : String) : String :=
  match dm.product_names.lookup product_id with
  | some entry => entry.getD ("Produkt " ++ product_id)
  | none => "Produkt " ++ product_id

/-- Python string comparison `a <= b`: lexicographic on code points. -/
def charListLe : List Char → List Char → Bool
  | [], _ => true
  | _ :: _, [] => false
  | a :: as, b :: bs =>
    if a < b then true else if b < a then false else charListLe as bs

def pyStrLe (a b : String) : Prop := charListLe a.toList b.toList = true

instance pyStrLeDec (a b : String) : Decidable (pyStrLe a b) := by
  unfold pyStrLe; infer_instance

lemma charListLe_total : ∀ as bs : List Char,
    charListLe as bs = true ∨ charListLe bs as = true := by
  intro as
  induction as with
  | nil => intro bs; exact Or.inl rfl
  | cons a as ih =>
    intro bs
    cases bs with
    | nil => exact Or.inr rfl
    | cons b bs =>
      by_cases hab : a < b
      · exact Or.inl (by simp [charListLe, hab])
      · by_cases hba : b < a
        · exact Or.inr (by simp [charListLe, hba])
        · rcases ih bs with h | h
          · exact Or.inl (by simp [charListLe, hab, hba, h])
          · exact Or.inr (by simp [charListLe, hab, hba, h])

lemma charListLe_trans : ∀ as bs cs : List Char,
    charListLe as bs = true → charListLe bs cs = true →
    charListLe as cs = true := by
  intro as
  induction as with
  | nil => intro bs cs _ _; rfl
  | cons a as ih =>
    intro bs cs h1 h2
    cases bs with
    | nil => simp [charListLe] at h1
    | cons b bs =>
      cases cs with
      | nil => simp [charListLe] at h2
      | cons c cs =>
        by_cases hab : a < b
        · by_cases hbc : b < c
          · simp [charListLe, lt_trans hab hbc]
          · by_cases hcb : c < b
            · simp [charListLe, hbc, hcb] at h2
            · have hbcq : b = c := le_antisymm (not_lt.mp hcb) (not_lt.mp hbc)
              subst hbcq
              simp [charListLe, hab]
        · by_cases hba : b < a
          · simp [charListLe, hab, hba] at h1
          · have habq : a = b := le_antisymm (not_lt.mp hba) (not_lt.mp hab)
            subst habq
            by_cases hbc : a < c
            · simp [charListLe, hbc]
            · by_cases hcb : c < a
              · simp [charListLe, hbc, hcb] at h2
              · simp [charListLe, hab, hba] at h1
                simp [charListLe, hbc, hcb] at h2 ⊢
                exact ih bs cs h1 h2

lemma pyStrLe_total (a b : String) : pyStrLe a b ∨ pyStrLe b a :=
  charListLe_total a.toList b.toList

lemma pyStrLe_trans {a b c : String} (h1 : pyStrLe a b) (h2 : pyStrLe b c) :
    pyStrLe a c :=
  charListLe_trans a.toList b.toList c.toList h1 h2

/-- The sort key of `get_technical_specs`:
`sorted(category_specs, key=lambda x: x.get("importance", "normal"), reverse=True)` —
the raw importance STRING, descending. -/
def impKey (sp : SpecRec) : String := (sp.importance).getD "normal"

def impGE (a b : SpecRec) : Prop := pyStrLe (impKey b) (impKey a)

instance : DecidableRel impGE := fun a b => by unfold impGE; infer_instance

instance : IsTotal SpecRec impGE :=
  ⟨fun a b => (pyStrLe_total (impKey b) (impKey a)).imp id id⟩

instance : IsTrans SpecRec impGE := ⟨fun _ _ _ h1 h2 => pyStrLe_trans h2 h1⟩

/-- One rendered spec line: `- **name:** value` plus the unit when it is
nonempty and not already a substring of the value. -/
def specLine (sp : SpecRec) : List String :=
  let name := (sp.name).getD ""
  let value := (sp.raw_value).getD ""
  let unit := (sp.unit).getD ""
  if name ≠ "" && value ≠ "" then
    [if unit ≠ "" && !(isSubstr unit value)
     then "- **" ++ name ++ ":** " ++ value ++ " " ++ unit
     else "- **" ++ name ++ ":** " ++ value]
  else []

/-- The category filter of `get_technical_specs`: keep a whole category
when a term matches the category name, else keep its individually
matching specs, dropping categories left empty. -/
def filterSpecGroups (filter_terms : List String)
    (groups : List (String × List SpecRec)) : List (String × List SpecRec) :=
  groups.foldl
    (fun acc p =>
      if filter_terms.any (fun t => isSubstr t (lowerStr p.1)) then acc ++ [p]
      else
        let matching := p.2.filter (fun sp =>
          filter_terms.any (fun t =>
            isSubstr t (lowerStr ((sp.name).getD "")) ||
            isSubstr t (lowerStr ((sp.raw_value).getD ""))))
        if matching ≠ [] then acc ++ [(p.1, matching)] else acc) []

structure SpecsResult where
  status : String
  message : Option String := none
  specs : List SpecRec := []
  specs_by_category : List (String × List SpecRec) := []
  formatted_text : String := ""
  deriving Repr, DecidableEq

/-- `get_technical_specs`: reads `technical_specs.jsonl` (absent file ⇒
error status), parses every line (`json.loads` inside the loop has no
per-line handler, so the first malformed line raises and the outer
`except` converts the whole read into an error result), groups by
category, optionally filters, sorts each category by the raw importance
string descending and renders the markdown list. -/
def get_technical_specs (dm : DataM) (product_id : String)
    (params : String := "") : SpecsResult :=
  match (lookupProduct dm product_id).bind (·.technical_specs) with
  | none =>
    { status := "error", message := some "Inga tekniska specifikationer tillgängliga" }
  | some fileLines =>
    match fileLines.mapM id with
    | none =>
      { status := "error",
        message := some "Kunde inte läsa tekniska specifikationer: JSONDecodeError" }
    | some specs =>
      let grouped0 := groupByFirst (fun sp => (sp.category).getD "Övrigt") specs
      let grouped_specs :=
        if params ≠ "" then
          let filter_terms := (splitWs params).map lowerStr
          let filtered := filterSpecGroups filter_terms grouped0
          if filtered ≠ [] then filtered else grouped0
        else grouped0
      let formatted_specs := grouped_specs.foldl
        (fun acc p =>
          acc ++ ["## " ++ p.1] ++
          ((List.insertionSort impGE p.2).foldl (fun ls sp => ls ++ specLine sp) []) ++
          [""]) []
      { status := "success"
        specs := specs
        specs_by_category := grouped_specs
        formatted_text := String.intercalate "\n" formatted_specs }

/-- Python `str.title()` (ASCII): uppercase every letter that follows a
non-letter, lowercase the rest. -/
def asciiTitle (s : String) : String :=
  (s.toList.foldl
    (fun (acc : List Char × Bool) c =>
      if c.isAlpha then
        (acc.1 ++ [if acc.2 then c.toLower else c.toUpper], true)
      else (acc.1 ++ [c], false))
    ([], false)).1.asString

/-- Relation-type display names of `get_compatibility_info`. -/
def relationDisplayFull : List (String × String) :=
  [("direct", "Kompatibel med"), ("fits", "Passar till"), ("requires", "Kräver"),
   ("recommended", "Rekommenderas med"), ("designed_for", "Designad för"),
   ("accessory", "Tillbehör till"), ("replacement", "Ersätter"),
   ("replaced_by", "Ersätts av"), ("not_compatible", "Ej kompatibel med")]

def relConfGE (a b : RelRec) : Prop := b.confidence ≤ a.confidence

instance : DecidableRel relConfGE := fun a b => by unfold relConfGE; infer_instance

instance : IsTotal RelRec relConfGE :=
  ⟨fun a b => le_total b.confidence a.confidence⟩

instance : IsTrans RelRec relConfGE := ⟨fun _ _ _ h1 h2 => le_trans h2 h1⟩

def relLine (relation : RelRec) : List String :=
  let related_product := (relation.related_product).getD ""
  if related_product ≠ "" then
    [match relation.numeric_ids with
     | [] => "- " ++ related_product
     | i :: _ => "- " ++ related_product ++ " (Art.nr: " ++ i ++ ")"]
  else []

def filterRelGroups (filter_terms : List String)
    (groups : List (String × List RelRec)) : List (String × List RelRec) :=
  groups.foldl
    (fun acc p =>
      if filter_terms.any (fun t => isSubstr t (lowerStr p.1)) then acc ++ [p]
      else
        let matching := p.2.filter (fun r =>
          filter_terms.any (fun t =>
            isSubstr t (lowerStr ((r.related_product).getD ""))))
        if matching ≠ [] then acc ++ [(p.1, matching)] else acc) []

structure CompatResult where
  status : String
  message : Option String := none
  relations : List RelRec := []
  relations_by_type : List (String × List RelRec) := []
  formatted_text : String := ""
  deriving Repr, DecidableEq

/-- `get_compatibility_info`: like `get_technical_specs`, grouped by
relation type, Swedish display labels (unknown types title-cased),
sorted by confidence descending; a malformed line likewise aborts the
whole read via the outer handler. -/
def get_compatibility_info (dm : DataM) (product_id : String)
    (params : String := "") : CompatResult :=
  match (lookupProduct dm product_id).bind (·.compatibility) with
  | none =>
    { status := "error", message := some "Ingen kompatibilitetsinformation tillgänglig" }
  | some fileLines =>
    match fileLines.mapM id with
    | none =>
      { status := "error",
        message := some "Kunde inte läsa kompatibilitetsinformation: JSONDecodeError" }
    | some relations =>
      let grouped0 := groupByFirst (fun r => (r.relation_type).getD "Övrigt") relations
      let grouped_relations :=
        if params ≠ "" then
          let filter_terms := (splitWs params).map lowerStr
          let filtered := filterRelGroups filter_terms grouped0
          if filtered ≠ [] then filtered else grouped0
        else grouped0
      let formatted_relations := grouped_relations.foldl
        (fun acc p =>
          let display_name :=
            (relationDisplayFull.lookup p.1).getD (asciiTitle (replaceChar '_' ' ' p.1))
          acc ++ ["## " ++ display_name] ++
          ((List.insertionSort relConfGE p.2).foldl (fun ls r => ls ++ relLine r) []) ++
          [""]) []
      { status := "success"
        relations := relations
        relations_by_type := grouped_relations
        formatted_text := String.intercalate "\n" formatted_relations }

/-- A corpus with one product whose two specs share a category but have
importance "high" (Höjd) and "normal" (Bredd). -/
def dmImportance : DataM :=
  { products :=
      [("50091812",
        { technical_specs := some
            [some { category := some "Allmänt", name := some "Höjd",
                    raw_value := some "10", importance := some "high" },
             some { category := some "Allmänt", name := some "Bredd",
                    raw_value := some "20", importance := some "normal" }] })] }

/-- C5: evaluating `get_technical_specs` on a spec file whose category
holds one "high" and one "normal" spec shows the read succeeding but the
"normal" spec rendered FIRST: `reverse=True` on the raw importance
string orders "normal" > "medium" > "high" lexicographically, the
opposite of the claimed high > medium > normal. -/
theorem get_technical_specs_importance_inverted :
    (get_technical_specs dmImportance "50091812" "").status = "success" ∧
    (get_technical_specs dmImportance "50091812" "").formatted_text =
      "## Allmänt\n- **Bredd:** 20\n- **Höjd:** 10\n" := by
  constructor
  · rfl
  · rfl

/-- A corpus whose spec and compatibility files each contain one
malformed line between two well-formed ones. -/
def dmBadLine : DataM :=
  { products :=
      [("P1",
        { technical_specs := some
            [some { category := some "Allmänt", name := some "Höjd",
                    raw_value := some "10", importance := some "high" },
             none,
             some { category := some "Allmänt", name := some "Bredd",
                    raw_value := some "20", importance := some "normal" }],
          compatibility := some
            [some { relation_type := some "fits",
                    related_product := some "Trycke X", confidence := 1 },
             none] })] }

/-- C6: a single malformed JSONL line makes both readers return status
"error" and discard the well-formed records — the read loops have no
per-line handler, so `json.loads` raises into the outer `except`. -/
theorem jsonl_bad_line_aborts_read :
    (get_technical_specs dmBadLine "P1" "").status = "error" ∧
    (get_technical_specs dmBadLine "P1" "").specs = [] ∧
    (get_compatibility_info dmBadLine "P1" "").status = "error" ∧
    (get_compatibility_info dmBadLine "P1" "").relations = [] := by
  exact ⟨rfl, rfl, rfl, rfl⟩

/-! ## Data manager: product summaries (cached and dynamic paths) -/

def joinComma (vs : List String) : String := String.intercalate ", " vs

/-- A `key_specifications` entry line (keys `name`/`value`/`unit`). -/
def keySpecLine (sp : KeySpec) : List String :=
  let name := (sp.name).getD ""
  let value := (sp.value).getD ""
  let unit := (sp.unit).getD ""
  if name ≠ "" && value ≠ "" then
    [if unit ≠ "" && !(isSubstr unit value)
     then "- **" ++ name ++ ":** " ++ value ++ " " ++ unit
     else "- **" ++ name ++ ":** " ++ value]
  else []

def keyCompatLine (relation : KeyCompat) : List String :=
  let related_product := (relation.related_product).getD ""
  if related_product ≠ "" then
    [match relation.numeric_ids with
     | [] => "- " ++ related_product
     | i :: _ => "- " ++ related_product ++ " (Art.nr: " ++ i ++ ")"]
  else []

/-- The four-entry display map of the cached path in
`get_product_summary`. -/
def relationDisplayShort : List (String × String) :=
  [("direct", "Kompatibel med"), ("fits", "Passar till"),
   ("requires", "Kräver"), ("recommended", "Rekommenderas med")]

/-- The eight-entry display map of `format_summary`. -/
def relationDisplayEight : List (String × String) :=
  [("direct", "Kompatibel med"), ("fits", "Passar till"), ("requires", "Kräver"),
   ("recommended", "Rekommenderas med"), ("designed_for", "Designad för"),
   ("accessory", "Tillbehör till"), ("replacement", "Ersätter"),
   ("replaced_by", "Ersätts av")]

/-- `format_summary` from `data_manager copy.py`: title, blank line,
article-number line when the summary object carries a `product_id` key,
bare identifier lines, description, key specifications grouped by
category (category headers only when more than one category, one
trailing blank), key compatibility grouped by type (type headers only
when more than one type, one trailing blank). -/
def format_summary (summary : Summary) : String :=
  let s1 := [if truthyOpt summary.product_name
             then "# " ++ summary.product_name.getD ""
             else "# Produkt " ++ (summary.product_id.getD "")] ++ [""]
  let s2 := match summary.product_id with
    | some pid => ["**Artikelnummer:** " ++ pid, ""]
    | none => []
  let id_lines := summary.identifiers.foldl
    (fun acc p =>
      acc ++ (if p.2 ≠ [] then ["**" ++ p.1 ++ ":** " ++ joinComma p.2] else [])) []
  let s3 := if id_lines ≠ [] then id_lines ++ [""] else []
  let s4 := if truthyOpt summary.description
            then ["## Beskrivning", summary.description.getD "", ""] else []
  let s5 :=
    if summary.key_specifications ≠ [] then
      let groups := groupByFirst (fun sp => (sp.category).getD "Övrigt")
        summary.key_specifications
      ["## Viktiga specifikationer"] ++
      groups.foldl
        (fun acc p =>
          acc ++ (if groups.length > 1 then ["### " ++ p.1] else []) ++
          p.2.foldl (fun ls sp => ls ++ keySpecLine sp) []) [] ++
      [""]
    else []
  let s6 :=
    if summary.key_compatibility ≠ [] then
      let groups := groupByFirst (fun r => (r.type_).getD "other")
        summary.key_compatibility
      ["## Kompatibilitet"] ++
      groups.foldl
        (fun acc p =>
          let display :=
            (relationDisplayEight.lookup p.1).getD (asciiTitle (replaceChar '_' ' ' p.1))
          acc ++ (if groups.length > 1 then ["### " ++ display] else []) ++
          p.2.foldl (fun ls r => ls ++ keyCompatLine r) []) [] ++
      [""]
    else []
  String.intercalate "\n" (s1 ++ s2 ++ s3 ++ s4 ++ s5 ++ s6)

/-- The formatting block written inline in `get_product_summary`
(cached path): no blank after the title, no article-number line, an
`## Identifierare` header with bulleted identifier lines, ungrouped key
specifications, unconditional `###` type headers and a blank after each
type, and only four display names. -/
def format_summary_cached (product_id : String) (summary : Summary) : String :=
  let s1 := [if truthyOpt summary.product_name
             then "# " ++ summary.product_name.getD ""
             else "# Produkt " ++ product_id]
  let id_body := summary.identifiers.foldl
    (fun acc p =>
      acc ++ (if p.2 ≠ [] then ["- **" ++ p.1 ++ ":** " ++ joinComma p.2] else [])) []
  let s2 := if id_body ≠ [] then ["## Identifierare"] ++ id_body ++ [""] else []
  let s3 := if truthyOpt summary.description
            then ["## Beskrivning", summary.description.getD "", ""] else []
  let s4 :=
    if summary.key_specifications ≠ [] then
      ["## Viktiga specifikationer"] ++
      summary.key_specifications.foldl (fun ls sp => ls ++ keySpecLine sp) [] ++
      [""]
    else []
  let s5 :=
    if summary.key_compatibility ≠ [] then
      let groups := groupByFirst (fun r => (r.type_).getD "other")
        summary.key_compatibility
      ["## Kompatibilitet"] ++
      groups.foldl
        (fun acc p =>
          let display :=
            (relationDisplayShort.lookup p.1).getD (asciiTitle (replaceChar '_' ' ' p.1))
          acc ++ ["### " ++ display] ++
          p.2.foldl (fun ls r => ls ++ keyCompatLine r) [] ++ [""]) []
    else []
  String.intercalate "\n" (s1 ++ s2 ++ s3 ++ s4 ++ s5)

/-- Importance rank used by `generate_dynamic_summary`
(`0 if "high" else 1 if "medium" else 2`, no `.get` default). -/
def dynRank (sp : SpecRec) : Nat :=
  if sp.importance = some "high" then 0
  else if sp.importance = some "medium" then 1 else 2

/-- Ascending lexicographic key `(rank, category)` of the dynamic
summary's spec sort. -/
def dynSpecLE (a b : SpecRec) : Prop :=
  dynRank a < dynRank b ∨
  (dynRank a = dynRank b ∧ pyStrLe ((a.category).getD "") ((b.category).getD ""))

instance : DecidableRel dynSpecLE := fun a b => by unfold dynSpecLE; infer_instance

instance : IsTotal SpecRec dynSpecLE := by
  refine ⟨fun a b => ?_⟩
  unfold dynSpecLE
  rcases Nat.lt_trichotomy (dynRank a) (dynRank b) with h | h | h
  · exact Or.inl (Or.inl h)
  · rcases pyStrLe_total ((a.category).getD "") ((b.category).getD "") with hs | hs
    · exact Or.inl (Or.inr ⟨h, hs⟩)
    · exact Or.inr (Or.inr ⟨h.symm, hs⟩)
  · exact Or.inr (Or.inl h)

instance : IsTrans SpecRec dynSpecLE := by
  refine ⟨fun a b c h1 h2 => ?_⟩
  unfold dynSpecLE at *
  rcases h1 with h1 | ⟨h1e, h1s⟩
  · rcases h2 with h2 | ⟨h2e, _⟩
    · exact Or.inl (lt_trans h1 h2)
    · exact Or.inl (h2e ▸ h1)
  · rcases h2 with h2 | ⟨h2e, h2s⟩
    · exact Or.inl (h1e ▸ h2)
    · exact Or.inr ⟨h1e.trans h2e, pyStrLe_trans h1s h2s⟩

/-- Descending lexicographic key `(0 if numeric_ids else 1, confidence)`
of the dynamic summary's relation sort (`reverse=True` on the tuple, so
relations WITHOUT resolved ids sort first — transcribed as found). -/
def relDynFlag (r : RelRec) : Nat := if r.numeric_ids ≠ [] then 0 else 1

def relDynGE (a b : RelRec) : Prop :=
  relDynFlag b < relDynFlag a ∨
  (relDynFlag b = relDynFlag a ∧ b.confidence ≤ a.confidence)

instance : DecidableRel relDynGE := fun a b => by unfold relDynGE; infer_instance

instance : IsTotal RelRec relDynGE := by
  refine ⟨fun a b => ?_⟩
  unfold relDynGE
  rcases Nat.lt_trichotomy (relDynFlag a) (relDynFlag b) with h | h | h
  · exact Or.inr (Or.inl h)
  · rcases le_total a.confidence b.confidence with hs | hs
    · exact Or.inr (Or.inr ⟨h, hs⟩)
    · exact Or.inl (Or.inr ⟨h.symm, hs⟩)
  · exact Or.inl (Or.inl h)

instance : IsTrans RelRec relDynGE := by
  refine ⟨fun a b c h1 h2 => ?_⟩
  unfold relDynGE at *
  rcases h1 with h1 | ⟨h1e, h1s⟩
  · rcases h2 with h2 | ⟨h2e, _⟩
    · exact Or.inl (lt_trans h2 h1)
    · exact Or.inl (h2e ▸ h1)
  · rcases h2 with h2 | ⟨h2e, h2s⟩
    · exact Or.inl (h1e ▸ h2)
    · exact Or.inr ⟨h2e.trans h1e, le_trans h2s h1s⟩

/-- Python dict-of-lists append `m[k].append(v)` on a `defaultdict`. -/
def appendValue (m : List (String × List String)) (k v : String) :
    List (String × List String) :=
  if (m.lookup k).isSome
  then m.map (fun p => if p.1 = k then (p.1, p.2 ++ [v]) else p)
  else m ++ [(k, [v])]

structure SummaryResult where
  status : String
  message : Option String := none
  summary : Option Summary := none
  dynamically_generated : Bool := false
  formatted_text : String := ""
  deriving Repr, DecidableEq

/-- `generate_dynamic_summary`: synthesizes a summary from the technical
and compatibility reads (top 5 of each after sorting), the identifiers
of `article_info.jsonl` (whole-file read aborted by a malformed line),
and renders it through `format_summary`. -/
def generate_dynamic_summary (dm : DataM) (product_id : String) : SummaryResult :=
  let tech := get_technical_specs dm product_id
  let description : Option String :=
    if tech.status = "success" then
      tech.specs.foldl
        (fun acc sp =>
          if (lowerStr ((sp.category).getD "")) ∈
              ["general", "allmänt", "beskrivning", "description"] &&
             (lowerStr ((sp.name).getD "")) ∈ ["beskrivning", "description"]
          then some ((sp.raw_value).getD "") else acc) none
    else none
  let key_specs : List KeySpec :=
    if tech.status = "success" then
      ((List.insertionSort dynSpecLE tech.specs).take 5).map
        (fun sp =>
          { name := some ((sp.name).getD ""), value := some ((sp.raw_value).getD ""),
            unit := some ((sp.unit).getD ""),
            category := some ((sp.category).getD "") })
    else []
  let compat := get_compatibility_info dm product_id
  let key_compat : List KeyCompat :=
    if compat.status = "success" then
      ((List.insertionSort relDynGE compat.relations).take 5).map
        (fun r =>
          { type_ := some ((r.relation_type).getD ""),
            related_product := some ((r.related_product).getD ""),
            has_product_id := r.numeric_ids ≠ [],
            numeric_ids := r.numeric_ids })
    else []
  let identifiers : List (String × List String) :=
    match (lookupProduct dm product_id).bind (·.article_info) with
    | none => []
    | some lines =>
      match lines.mapM id with
      | none => []
      | some ids =>
        ids.foldl
          (fun acc idrec =>
            let t := (idrec.type_).getD ""
            let v := (idrec.value).getD ""
            if t ≠ "" && v ≠ "" then appendValue acc t v else acc) []
  let summary : Summary :=
    { product_id := some product_id
      product_name := some (get_product_name dm product_id)
      description := description
      key_specifications := key_specs
      key_compatibility := key_compat
      identifiers := identifiers }
  { status := "success"
    summary := some summary
    dynamically_generated := true
    formatted_text := format_summary summary }

/-- `get_product_summary`: reads the precomputed `summary.jsonl` when
present (formatting INLINE, not via `format_summary`), falls back to
`generate_dynamic_summary` when the file is missing, and returns an
error when the single line fails to parse. -/
def get_product_summary (dm : DataM) (product_id : String)
    (params : String := "") : SummaryResult :=
  match (lookupProduct dm product_id).bind (·.summary_line) with
  | none => generate_dynamic_summary dm product_id
  | some parsed =>
    match parsed with
    | none =>
      { status := "error",
        message := some "Kunde inte läsa produktsammanfattning: JSONDecodeError" }
    | some summary =>
      { status := "success"
        summary := some summary
        formatted_text := format_summary_cached product_id summary }

/-- A minimal cached summary object: a product name and a product id. -/
def summarySimple : Summary :=
  { product_id := some "123", product_name := some "Testprodukt" }

def dmCached : DataM :=
  { products := [("123", { summary_line := some (some summarySimple) })] }

/-- C7: the cached path of `get_product_summary` and `format_summary`
(the routine the dynamic path renders through) disagree already on a
minimal summary object: the inline cached formatter emits just the
title, while `format_summary` adds a blank line and an
`**Artikelnummer:**` line — the two paths do not share one formatting
routine. -/
theorem summary_formatting_paths_differ :
    (get_product_summary dmCached "123" "").formatted_text = "# Testprodukt" ∧
    format_summary summarySimple = "# Testprodukt\n\n**Artikelnummer:** 123\n" ∧
    (get_product_summary dmCached "123" "").formatted_text ≠
      format_summary summarySimple := by
  exact ⟨rfl, rfl, by decide⟩

/-! ## Data manager: product search -/

structure SearchMatch where
  product_id : String
  name : String
  score : ℚ
  match_type : String
  deriving Repr, DecidableEq

def scoreGE (a b : SearchMatch) : Prop := b.score ≤ a.score

instance : DecidableRel scoreGE := fun a b => by unfold scoreGE; infer_instance

instance : IsTotal SearchMatch scoreGE := ⟨fun a b => le_total b.score a.score⟩

instance : IsTrans SearchMatch scoreGE := ⟨fun _ _ _ h1 h2 => le_trans h2 h1⟩

structure SearchResult where
  status : String
  query : String := ""
  matches_ : List SearchMatch := []
  total_matches : Nat := 0
  formatted_text : String := ""
  deriving Repr, DecidableEq

/-- `find_fuzzy_matches`: token-Jaccard over the name→id map with a
bonus for >1 overlapping word, a penalty for names of ≤2 words, and a
0.2 threshold.  Python's float division `overlap / (|q| + |n| - overlap)`
is `mkRat` (the denominator is positive whenever overlap > 0). -/
def find_fuzzy_matches (dm : DataM) (query : String) (max_results : Nat) :
    List SearchMatch :=
  let query_words := dedupKeepFirst (splitWs (lowerStr query))
  let scored_matches := (name_to_id_map dm).foldl
    (fun acc p =>
      let name_words := dedupKeepFirst (splitWs p.1)
      let overlap := (query_words.filter (fun w => w ∈ name_words)).length
      if overlap > 0 then
        let score0 : ℚ :=
          mkRat overlap (query_words.length + name_words.length - overlap)
        let score1 := if overlap > 1 then score0 + mkRat 1 10 * overlap else score0
        let score2 := if name_words.length ≤ 2 then score1 * mkRat 8 10 else score1
        if score2 > mkRat 2 10
        then acc ++ [⟨p.2, asciiTitle p.1, score2, "fuzzy"⟩]
        else acc
      else acc) []
  (List.insertionSort scoreGE scored_matches).take max_results

/-- `search_products`: exact hits from the text-search word index scored
1.0, topped up with fuzzy matches (deduplicated) when short of
`max_results`, sorted by score descending and truncated.  Both the
exact-match `set` and the word `set` are modelled in first-seen order. -/
def search_products (dm : DataM) (query0 : String) (max_results : Nat) :
    SearchResult :=
  let query := lowerStr query0
  let query_words := dedupKeepFirst (splitWs query)
  let exact_matches := query_words.foldl
    (fun acc w =>
      match dm.text_search_index.lookup w with
      | some pids => pids.foldl (fun a pid => if pid ∈ a then a else a ++ [pid]) acc
      | none => acc) []
  let results0 : List SearchMatch :=
    exact_matches.map (fun pid => ⟨pid, get_product_name dm pid, 1, "exact"⟩)
  let results1 :=
    if results0.length < max_results then
      let fuzzy := find_fuzzy_matches dm query (max_results - results0.length)
      let existing := results0.map (·.product_id)
      results0 ++ fuzzy.filter (fun m => m.product_id ∉ existing)
    else results0
  let results := (List.insertionSort scoreGE results1).take max_results
  let formatted :=
    if results = [] then
      ["## Sökresultat", "", "Inga produkter hittades som matchar din sökning."]
    else
      ["## Sökresultat", ""] ++
      (results.enum.map (fun p =>
        toString (p.1 + 1) ++ ". **" ++ p.2.name ++ "** (Art.nr: " ++
          p.2.product_id ++ ")")) ++
      ["", "Använd kommandot `-s <artikelnr>` för att se mer information om en produkt."]
  { status := "success"
    query := query
    matches_ := results
    total_matches := results.length
    formatted_text := String.intercalate "\n" formatted }

/-- C10: for every corpus, query and positive bound, `search_products`
returns status "success" with at most `max_results` matches, and when
nothing matched it signals emptiness only through the empty match list
and the no-hits text. -/
theorem search_products_always_succeeds :
    ∀ (dm : DataM) (query : String) (max_results : Nat), 0 < max_results →
      (search_products dm query max_results).status = "success" ∧
      (search_products dm query max_results).matches_.length ≤ max_results ∧
      ((search_products dm query max_results).matches_ = [] →
        (search_products dm query max_results).formatted_text =
          "## Sökresultat\n\nInga produkter hittades som matchar din sökning.") := by
  intro dm query max_results _
  refine ⟨rfl, ?_, ?_⟩
  · exact List.length_take_le _ _
  · intro h
    have hft : (search_products dm query max_results).formatted_text =
        String.intercalate "\n"
          (if (search_products dm query max_results).matches_ = [] then
            ["## Sökresultat", "", "Inga produkter hittades som matchar din sökning."]
          else
            ["## Sökresultat", ""] ++
            ((search_products dm query max_results).matches_.enum.map (fun p =>
              toString (p.1 + 1) ++ ". **" ++ p.2.name ++ "** (Art.nr: " ++
                p.2.product_id ++ ")")) ++
            ["",
             "Använd kommandot `-s <artikelnr>` för att se mer information om en produkt."]) :=
      rfl
    rw [hft, h]
    rfl

/-- Witness for C10: an empty corpus with bound 3 — success, no matches,
no-hits text. -/
theorem search_products_always_succeeds_witness :
    (search_products {} "lås" 3).status = "success" ∧
    (search_products {} "lås" 3).matches_.length ≤ 3 ∧
    ((search_products {} "lås" 3).matches_ = [] →
      (search_products {} "lås" 3).formatted_text =
        "## Sökresultat\n\nInga produkter hittades som matchar din sökning.") :=
  search_products_always_succeeds {} "lås" 3 (by decide)

/-! ## NLP processor: text preprocessing
Source: `nlp_bot_engine/nlp/processor.py`, `preprocess`.  Unicode NFKD
normalization is the identity on the ASCII queries modelled here. -/

/-- `re.sub(r'\s+', ' ', text)`: collapse whitespace runs to one space. -/
def collapseWs (s : String) : String :=
  ((s.toList.foldl
    (fun (acc : List Char × Bool) c =>
      if c.isWhitespace then (if acc.2 then acc else (acc.1 ++ [' '], true))
      else (acc.1 ++ [c], false))
    ([], false)).1).asString

/-- `re.sub(r'--', '-', text)`: non-overlapping left-to-right. -/
def subDoubleHyphen : List Char → List Char
  | '-' :: '-' :: rest => '-' :: subDoubleHyphen rest
  | c :: rest => c :: subDoubleHyphen rest
  | [] => []

/-- `re.sub(r'\.\.+', '...', text)`: every maximal run of two or more
dots becomes exactly three.  The Bool is true while skipping the tail of
a run already rewritten. -/
def subDots : Bool → List Char → List Char
  | _, [] => []
  | true, c :: rest =>
    if c = '.' then subDots true rest else c :: subDots false rest
  | false, '.' :: '.' :: rest2 => '.' :: '.' :: '.' :: subDots true rest2
  | false, c :: rest => c :: subDots false rest

/-- The two quote-normalization substitutions (curly double quotes to
`"`, curly single quotes and the backtick — written via its code point —
to `'`). -/
def normalizeQuotes (s : String) : String :=
  (s.toList.map (fun c =>
    if c = '“' ∨ c = '”' ∨ c = '„' then '"'
    else if c = '‘' ∨ c = '’' ∨ c = Char.ofNat 96 then '\''
    else c)).asString

/-- `NLPProcessor.preprocess`. -/
def preprocess (text : String) : String :=
  let t1 := pyStrip (collapseWs text)
  let t2 := (subDoubleHyphen t1.toList).asString
  let t3 := (subDots false t2.toList).asString
  normalizeQuotes t3

/-! ## Engine command parsing
`re.match(r'^(-[tcfs])\s+(\S+)(.*)$', user_input)` (single-line inputs;
`$` and the dot's newline behaviour play no role). -/

def parseCommand (s : String) : Option (String × String × String) :=
  match s.toList with
  | '-' :: c :: rest =>
    if c = 't' ∨ c = 'c' ∨ c = 'f' ∨ c = 's' then
      let ws := rest.takeWhile Char.isWhitespace
      let rest2 := rest.dropWhile Char.isWhitespace
      if ws ≠ [] then
        let pid := rest2.takeWhile (fun ch => !ch.isWhitespace)
        let rest3 := rest2.dropWhile (fun ch => !ch.isWhitespace)
        if pid ≠ [] then some ("-" ++ c.toString, pid.asString, rest3.asString)
        else none
      else none
    else none
  | _ => none

/-! ## Entity extractor: regex passes
Source: `extract_regex_entities`.  Each pattern is hand-compiled to a
deterministic scanner; the only construct needing an alternative retry
is the optional `-13` / `-8` after a literal `EAN` (all other greedy
steps consume character classes disjoint from what can follow, so
greediness never needs backtracking on any input). -/

/-- Case-insensitive literal match, returning the remainder. -/
def consumeCIChars : List Char → List Char → Option (List Char)
  | [], l => some l
  | _ :: _, [] => none
  | p :: ps, c :: cs =>
    if p.toLower = c.toLower then consumeCIChars ps cs else none

/-- `[A-Z0-9\-]` under `(?i)`. -/
def artClass (c : Char) : Bool :=
  ('A' ≤ c && c ≤ 'Z') || ('a' ≤ c && c ≤ 'z') || c.isDigit || c = '-'

/-- `(?i)art(?:ikel)?\.?(?:nr|nummer)\.?\s*[:=]?\s*([A-Z0-9\-]{5,15})`
at the start of `l`; returns (group offset, group length); the match
ends with the group. -/
def tryArt1 (l : List Char) : Option (Nat × Nat) :=
  (consumeCIChars "art".toList l).bind fun r1 =>
  let r2 := (consumeCIChars "ikel".toList r1).getD r1
  let r3 := match r2 with | '.' :: t => t | _ => r2
  (match consumeCIChars "nr".toList r3 with
   | some r4 => some r4
   | none => consumeCIChars "nummer".toList r3).bind fun r4 =>
  let r5 := match r4 with | '.' :: t => t | _ => r4
  let r6 := r5.dropWhile Char.isWhitespace
  let r7 := match r6 with
    | c :: t => if c = ':' ∨ c = '=' then t else r6
    | [] => r6
  let r8 := r7.dropWhile Char.isWhitespace
  let grp := (r8.takeWhile artClass).take 15
  if grp.length ≥ 5 then some (l.length - r8.length, grp.length) else none

/-- `(?<!\d)(\d{n})(?!\d)`: the maximal digit run starting here (with no
digit immediately before) has length exactly `n`. -/
def tryBareDigits (n : Nat) (prev : Option Char) (l : List Char) :
    Option (Nat × Nat) :=
  match prev with
  | some p => if p.isDigit then none else
      if (l.takeWhile Char.isDigit).length = n then some (0, n) else none
  | none => if (l.takeWhile Char.isDigit).length = n then some (0, n) else none

/-- `(?i)EAN(?:-suffix)?[:.\-]?\s*(\d{n})(?!\d)`: the optional literal
suffix is tried greedily and retried without on failure (the one true
backtracking point of these patterns). -/
def tryEanLabeled (suffix : String) (n : Nat) (l : List Char) :
    Option (Nat × Nat) :=
  (consumeCIChars "EAN".toList l).bind fun r1 =>
  let after := fun (r2 : List Char) =>
    let r3 := match r2 with
      | c :: t => if c = ':' ∨ c = '.' ∨ c = '-' then t else r2
      | [] => r2
    let r4 := r3.dropWhile Char.isWhitespace
    let ds := r4.takeWhile Char.isDigit
    if ds.length = n then some (l.length - r4.length, n) else none
  match consumeCIChars suffix.toList r1 with
  | some r2 =>
    match after r2 with
    | some res => some res
    | none => after r1
  | none => after r1

/-- `(\d+(?:[.,]\d+)?)\s*(?:mm|cm|m|tum)` (case-sensitive); returns
(0, total match length) — group 0 is the whole match. -/
def tryDimension (l : List Char) : Option (Nat × Nat) :=
  let ds := l.takeWhile Char.isDigit
  if ds ≠ [] then
    let r1 := l.drop ds.length
    let r2 := match r1 with
      | c :: t =>
        if (c = '.' ∨ c = ',') && (t.takeWhile Char.isDigit) ≠ []
        then t.drop (t.takeWhile Char.isDigit).length
        else r1
      | [] => r1
    let r3 := r2.dropWhile Char.isWhitespace
    let unitLen : Option Nat :=
      match r3 with
      | 'm' :: 'm' :: _ => some 2
      | 'c' :: 'm' :: _ => some 2
      | 'm' :: _ => some 1
      | 't' :: 'u' :: 'm' :: _ => some 3
      | _ => none
    unitLen.map (fun ul => (0, (l.length - r3.length) + ul))
  else none

/-- `re.finditer` driver: leftmost matches, continuing after each match
end.  `step pos` returns (group start, group end, match end), all
absolute. -/
def scanAll (step : Nat → Option (Nat × Nat × Nat)) : Nat → Nat → List (Nat × Nat)
  | _, 0 => []
  | pos, fuel + 1 =>
    match step pos with
    | some (gs, ge, me) => (gs, ge) :: scanAll step (max me (pos + 1)) fuel
    | none => scanAll step (pos + 1) fuel

/-- Slice `[a, b)` of a char list as a string. -/
def sliceStr (cs : List Char) (a b : Nat) : String :=
  ((cs.drop a).take (b - a)).asString

/-- `extract_regex_entities`: article numbers (labelled, bare 8-digit),
EAN codes (labelled 13, bare 13, labelled 8 — all checksum-validated)
and unit-bearing dimensions. -/
def extract_regex_entities (text : String) : List Entity :=
  let cs := text.toList
  let n := cs.length
  let run := fun (step : Nat → Option (Nat × Nat × Nat)) => scanAll step 0 (n + 1)
  let art1 := run (fun pos =>
    (tryArt1 (cs.drop pos)).map (fun p => (pos + p.1, pos + p.1 + p.2, pos + p.1 + p.2)))
  let art2 := run (fun pos =>
    if pos ≤ n then
      (tryBareDigits 8 (if pos = 0 then none else cs.get? (pos - 1)) (cs.drop pos)).map
        (fun p => (pos, pos + p.2, pos + p.2))
    else none)
  let articleEnts := (art1 ++ art2).map (fun p =>
    { type_ := "ARTICLE_NUMBER", text := sliceStr cs p.1 p.2,
      start := (p.1 : Int), stop := (p.2 : Int),
      confidence := (0.9 : ℚ), source := "regex" : Entity })
  let ean1 := run (fun pos =>
    (tryEanLabeled "-13" 13 (cs.drop pos)).map
      (fun p => (pos + p.1, pos + p.1 + p.2, pos + p.1 + p.2)))
  let ean2 := run (fun pos =>
    if pos ≤ n then
      (tryBareDigits 13 (if pos = 0 then none else cs.get? (pos - 1)) (cs.drop pos)).map
        (fun p => (pos, pos + p.2, pos + p.2))
    else none)
  let ean3 := run (fun pos =>
    (tryEanLabeled "-8" 8 (cs.drop pos)).map
      (fun p => (pos + p.1, pos + p.1 + p.2, pos + p.1 + p.2)))
  let eanEnts := ((ean1 ++ ean2 ++ ean3).filter
      (fun p => is_valid_ean (sliceStr cs p.1 p.2))).map (fun p =>
    { type_ := "EAN", text := sliceStr cs p.1 p.2,
      start := (p.1 : Int), stop := (p.2 : Int),
      confidence := (0.95 : ℚ), source := "regex" : Entity })
  let dims := run (fun pos =>
    (tryDimension (cs.drop pos)).map (fun p => (pos, pos + p.2, pos + p.2)))
  let dimEnts := dims.map (fun p =>
    { type_ := "DIMENSION", text := sliceStr cs p.1 p.2,
      start := (p.1 : Int), stop := (p.2 : Int),
      confidence := (0.85 : ℚ), source := "regex" : Entity })
  articleEnts ++ eanEnts ++ dimEnts

/-- All positions at which `needle` occurs in `hay` (the source's
`find`/`find(name, pos+1)` loop visits exactly these, in order). -/
def occurrencePositions (needle hay : List Char) : List Nat :=
  (List.range (hay.length + 1)).filter (fun p => needle.isPrefixOf (hay.drop p))

/-- `extract_product_entities`: case-insensitive substring search of
every known product name.  In the engine wiring `nlp_processor` carries
neither `name_to_id_map` nor `data_manager`, so the map is empty there;
the parameter keeps the body faithful. -/
def extract_product_entities (nameToId : List (String × String)) (text : String) :
    List Entity :=
  let text_lower := (lowerStr text).toList
  let cs := text.toList
  nameToId.foldl
    (fun acc p =>
      acc ++ (occurrencePositions p.1.toList text_lower).map (fun pos =>
        { type_ := "PRODUCT", text := sliceStr cs pos (pos + p.1.length),
          start := (pos : Int), stop := ((pos + p.1.length : Nat) : Int),
          confidence := (0.9 : ℚ), source := "product_index",
          product_id := some p.2 : Entity })) []

/-- `extract_context_entities`: one implicit PRODUCT entity when the
query contains a bare anaphor word and a session product is active.
The display name comes from `get_product_name`, which in the engine
wiring finds no `data_manager` and returns `None`, so the fallback
`"Produkt {id}"` is always used. -/
def extract_context_entities (text : String) (ctx : Ctx) : List Entity :=
  match ctx.active_product_id with
  | some pid =>
    if pid ≠ "" then
      let text_lower := splitWs (lowerStr text)
      if ["den", "denna", "det", "produkten", "artikeln"].any
          (fun r => r ∈ text_lower) then
        [{ type_ := "PRODUCT", text := "Produkt " ++ pid,
           start := -1, stop := -1, confidence := (0.8 : ℚ),
           source := "context", product_id := some pid,
           is_contextual_reference := true }]
      else []
    else []
  | none => []

/-- `calculate_name_similarity`: token-set Jaccard (0 when either token
set is empty; the denominator is otherwise positive, so Python's float
division is `mkRat`). -/
def calculate_name_similarity (name1 name2 : String) : ℚ :=
  let tokens1 := dedupKeepFirst (splitWs (lowerStr name1))
  let tokens2 := dedupKeepFirst (splitWs (lowerStr name2))
  if tokens1 = [] ∨ tokens2 = [] then 0
  else
    let inter := (tokens1.filter (fun t => t ∈ tokens2)).length
    let union := tokens1.length + (tokens2.filter (fun t => t ∉ tokens1)).length
    mkRat inter union

/-- `find_product_id_by_name`: exact lowercase lookup, then the best
fuzzy candidate with similarity strictly above 0.8. -/
def find_product_id_by_name (nameToId : List (String × String)) (name : String) :
    Option String :=
  let name_lower := lowerStr name
  match nameToId.lookup name_lower with
  | some pid => some pid
  | none =>
    (nameToId.foldl
      (fun (best : Option String × ℚ) p =>
        let similarity := calculate_name_similarity name_lower p.1
        if similarity > best.2 ∧ similarity > (0.8 : ℚ)
        then (some p.2, similarity) else best)
      (none, 0)).1

/-- `find_product_id_by_article_number`: the engine wiring gives
`nlp_processor` no `data_manager` attribute, so the index is never
reachable and the lookup always returns `None`. -/
def find_product_id_by_article_number (_article_number : String) :
    Option String := none

/-- `find_product_id_by_ean`: unreachable index for the same reason. -/
def find_product_id_by_ean (_ean : String) : Option String := none

/-- `enrich_entities`. -/
def enrich_entities (nameToId : List (String × String))
    (entities : List Entity) : List Entity :=
  entities.map (fun e =>
    if e.type_ = "PRODUCT" then
      match e.product_id with
      | some _ => e
      | none =>
        match find_product_id_by_name nameToId e.text with
        | some pid => { e with product_id := some pid }
        | none => e
    else if e.type_ = "ARTICLE_NUMBER" then
      match find_product_id_by_article_number e.text with
      | some pid => { e with product_id := some pid, type_ := "PRODUCT" }
      | none => e
    else if e.type_ = "EAN" then
      match find_product_id_by_ean e.text with
      | some pid => { e with product_id := some pid, type_ := "PRODUCT" }
      | none => e
    else e)

/-- `extract_entities` in the configuration the engine actually builds:
no spaCy model is loaded, so the statistical pass contributes nothing;
the regex, dictionary and context passes run, then merge and enrich.
(The source skips the context pass when the context dict is empty; on an
empty context that pass returns no entities anyway, so running it
unconditionally is equivalent.) -/
def extract_entities (nameToId : List (String × String)) (text : String)
    (ctx : Ctx) : List Entity :=
  let entities :=
    extract_regex_entities text ++
    extract_product_entities nameToId text ++
    extract_context_entities text ctx
  enrich_entities nameToId (merge_overlapping_entities entities)

/-! ## Intent analyzer: the four scorers
Source: `processor.py` (`detect_intent_keywords`) and
`intent_analyzer.py`.  The modelled configuration is the one the engine
builds when no spaCy or embedding model is installed. -/

/-- `detect_intent_keywords`: per-intent Swedish keyword lists; score =
(number of keywords occurring as substrings) / (list length), 0 when
none; all-zero maps get `summary = 0.1` forced. -/
def detect_intent_keywords (text : String) : List (String × ℚ) :=
  let text_lower := lowerStr text
  let intent_patterns : List (String × List String) :=
    [("technical",
      ["teknisk", "specifikation", "mått", "dimension", "vikt", "material",
       "effekt", "spänning", "ström", "hur ser", "hur stor", "hur tung"]),
     ("compatibility",
      ["passar", "kompatibel", "fungerar med", "kan användas med", "passar till",
       "monteringsstolpe", "trycke", "tillsammans med", "går att använda"]),
     ("summary",
      ["berätta om", "vad är", "information om", "beskriv", "sammanfatta",
       "översikt", "produktfakta", "vad betyder", "vad innebär"]),
     ("search",
      ["hitta", "sök", "leta", "finns det", "har ni", "jag letar efter",
       "jag behöver en", "alternativ till", "liknande"])]
  let intent_scores := intent_patterns.map (fun p =>
    let score := (p.2.filter (fun keyword => isSubstr keyword text_lower)).length
    (p.1, if score > 0 then ((score : ℚ) / (p.2.length : ℚ)) else 0))
  if intent_scores.all (fun p => p.2 = 0) then
    intent_scores.map (fun p => if p.1 = "summary" then (p.1, (0.1 : ℚ)) else p)
  else intent_scores

/-- `detect_semantic_intent` with no embedding model loaded: every
intent scores 0 (prototype key order). -/
def detect_semantic_intent : List (String × ℚ) :=
  [("technical", 0), ("compatibility", 0), ("summary", 0), ("search", 0)]

/-- `detect_entity_based_intent`: the dict starts all-zero and each
`+=` is one addend below. -/
def detect_entity_based_intent (entities : List Entity) : List (String × ℚ) :=
  let entity_types := entities.map (·.type_)
  let cnt := fun t => (entity_types.filter (· = t)).length
  let technical :=
    (if cnt "DIMENSION" > 0
     then (0.6 : ℚ) * ((min (cnt "DIMENSION") 3 : Nat) : ℚ) / 3 else 0) +
    (if cnt "PRODUCT" > 0 ∧ ¬(cnt "PRODUCT" > 1) then (0.3 : ℚ) else 0)
  let compatibility :=
    (if cnt "COMPATIBILITY" > 0 then (0.8 : ℚ) else 0) +
    (if cnt "PRODUCT" > 1 ∧ cnt "COMPATIBILITY" > 0 then (0.3 : ℚ) else 0)
  let summary :=
    (if cnt "PRODUCT" > 0 ∧ ¬(cnt "PRODUCT" > 1) then (0.4 : ℚ) else 0) +
    (if entity_types = [] then (0.2 : ℚ) else 0)
  let search := if cnt "PRODUCT" > 1 then (0.5 : ℚ) else 0
  [("technical", technical), ("compatibility", compatibility),
   ("summary", summary), ("search", search)]

/-- `detect_context_based_intent`: previous-intent stickiness when any
history exists, a small summary bias otherwise. -/
def detect_context_based_intent (ctx : Ctx) : List (String × ℚ) :=
  let technical :=
    if ctx.query_history ≠ [] then
      (if ctx.previous_intent = some "summary" then (0.2 : ℚ) else 0) +
      (if ctx.previous_intent = some "technical" then (0.3 : ℚ) else 0)
    else 0
  let compatibility :=
    if ctx.query_history ≠ [] then
      (if ctx.previous_intent = some "summary" then (0.2 : ℚ) else 0) +
      (if ctx.previous_intent = some "compatibility" then (0.3 : ℚ) else 0)
    else 0
  let summary :=
    if ctx.query_history ≠ [] then
      (if ctx.previous_intent = some "search" ∧ truthyOpt ctx.active_product_id
       then (0.4 : ℚ) else 0)
    else (0.1 : ℚ)
  [("technical", technical), ("compatibility", compatibility),
   ("summary", summary), ("search", 0)]

def pairScoreGE (a b : String × ℚ) : Prop := b.2 ≤ a.2

instance : DecidableRel pairScoreGE := fun a b => by
  unfold pairScoreGE; infer_instance

structure IntentAnalysis where
  intents : List (String × ℚ)
  primary_intent : String
  confidence : ℚ
  keyword_based : List (String × ℚ)
  semantic_based : List (String × ℚ)
  entity_based : List (String × ℚ)
  context_based : List (String × ℚ)
  deriving Repr, DecidableEq

/-- `analyze_intent`: the four scorers, the weighted combination, the
primary intent with confidence, and the score-sorted intent list. -/
def analyze_intent (text : String) (entities : List Entity) (ctx : Ctx) :
    IntentAnalysis :=
  let keyword_intents := detect_intent_keywords text
  let semantic_intents := detect_semantic_intent
  let entity_intents := detect_entity_based_intent entities
  let context_intents := detect_context_based_intent ctx
  let combined := combine_intent_scores keyword_intents semantic_intents
    entity_intents context_intents
  let pc := determine_primary_intent combined
  { intents := List.insertionSort pairScoreGE combined
    primary_intent := pc.1
    confidence := pc.2
    keyword_based := keyword_intents
    semantic_based := semantic_intents
    entity_based := entity_intents
    context_based := context_intents }

/-! ## Engine
Source: `nlp_bot_engine/core/engine.py`.  The response record keeps the
fields the claims constrain (`status`, `clarification_questions`); the
other payload entries (analysis echo, data result, formatted text,
timestamps) and the engine's statistics counters and response cache —
pure memoization that never changes a result — are not modelled. -/

structure EngineData where
  dm : DataM := {}
  min_confidence : ℚ := (0.6 : ℚ)
  max_search_results : Nat := 5
  deriving Repr, DecidableEq

structure Question where
  type_ : String
  text : String
  options : List (String × String) := []
  deriving Repr, DecidableEq

structure Response where
  status : String
  clarification_questions : List Question := []
  deriving Repr, DecidableEq

structure Analysis where
  original_query : String
  processed_text : String
  entities : List Entity
  intents : List (String × ℚ)
  primary_intent : String
  confidence : ℚ
  deriving Repr, DecidableEq

def validate_product_id (dm : DataM) (product_id : String) : Bool :=
  (dm.products.lookup product_id).isSome

structure FullResult where
  status : String
  message : Option String := none
  content : String := ""
  formatted_text : String := ""
  deriving Repr, DecidableEq

def get_full_info (dm : DataM) (product_id : String) : FullResult :=
  match (lookupProduct dm product_id).bind (·.full_info) with
  | none => { status := "error", message := some "Ingen fullständig information tillgänglig" }
  | some content =>
    { status := "success", content := content, formatted_text := content }

inductive IntentResult where
  | specsR : SpecsResult → IntentResult
  | compatR : CompatResult → IntentResult
  | summaryR : SummaryResult → IntentResult
  | searchR : SearchResult → IntentResult
  | statusOnly : String → IntentResult
  deriving Repr, DecidableEq

def IntentResult.status : IntentResult → String
  | .specsR r => r.status
  | .compatR r => r.status
  | .summaryR r => r.status
  | .searchR r => r.status
  | .statusOnly s => s

/-- `execute_intent`: resolve the target product (first PRODUCT entity
with a truthy id, else the truthy active product) and dispatch on the
primary intent; with no product, fall through to a search on the
processed text (the error fallback below it is unreachable). -/
def execute_intent (ed : EngineData) (analysis : Analysis) (ctx : Ctx)
    (ignore_confidence : Bool) : IntentResult :=
  if ¬ignore_confidence ∧ analysis.confidence < ed.min_confidence then
    .statusOnly "low_confidence"
  else
    let intent := analysis.primary_intent
    let fromEnt := (analysis.entities.find?
      (fun e => e.type_ = "PRODUCT" && truthyOpt e.product_id)).bind (·.product_id)
    let product_id : Option String :=
      match fromEnt with
      | some p => some p
      | none => if truthyOpt ctx.active_product_id then ctx.active_product_id else none
    match product_id with
    | some pid =>
      if intent = "technical" then .specsR (get_technical_specs ed.dm pid)
      else if intent = "compatibility" then .compatR (get_compatibility_info ed.dm pid)
      else if intent = "summary" then .summaryR (get_product_summary ed.dm pid)
      else if intent = "search" then
        let search_terms := String.intercalate " "
          ((analysis.entities.filter (fun e => e.type_ ≠ "PRODUCT")).map (·.text))
        .searchR (search_products ed.dm search_terms ed.max_search_results)
      else .summaryR (get_product_summary ed.dm pid)
    | none =>
      .searchR (search_products ed.dm analysis.processed_text ed.max_search_results)

def suggest_products (dm : DataM) (query : String) (max_suggestions : Nat) :
    List SearchMatch :=
  (search_products dm query max_suggestions).matches_

/-- Python's `"PRODUCT" in analysis["entities"]` compares the string
against entity dicts and is never true. -/
def strInEntityList (_s : String) (_es : List Entity) : Bool := false

/-- `generate_clarification_questions`. -/
def generate_clarification_questions (ed : EngineData) (analysis : Analysis)
    (_ctx : Ctx) : List Question :=
  let product_entities := analysis.entities.filter (fun e => e.type_ = "PRODUCT")
  let q1 : List Question :=
    if product_entities ≠ [] ∧ product_entities.length > 1 then
      [{ type_ := "product_selection"
         text := "Vilken av dessa produkter menar du?"
         options := (product_entities.take 4).map
           (fun e => ((e.product_id).getD "", e.text)) }]
    else if product_entities = [] ∧
        strInEntityList "PRODUCT" analysis.entities then
      let suggested_searches := suggest_products ed.dm analysis.original_query 3
      if suggested_searches ≠ [] then
        [{ type_ := "product_suggestion"
           text := "Jag är inte säker på vilken produkt du menar. Är det någon av dessa?"
           options := (suggested_searches.take 4).map (fun m => (m.product_id, m.name)) }]
      else []
    else []
  let q2 : List Question :=
    if analysis.primary_intent = "" ∨ analysis.confidence < (0.3 : ℚ) then
      [{ type_ := "intent_selection"
         text := "Vad vill du veta om produkten?"
         options := [("technical", "Tekniska specifikationer"),
                     ("compatibility", "Kompatibilitetsinformation"),
                     ("summary", "Allmän produktinformation"),
                     ("search", "Sök efter produkter")] }]
    else []
  let questions := q1 ++ q2
  if questions = [] then
    [{ type_ := "general_clarification"
       text := "Jag förstod inte riktigt din fråga. Kan du omformulera den eller vara mer specifik?"
       options := [] }]
  else questions

/-- `handle_low_confidence`: below 0.4 ask for clarification, otherwise
answer with a best guess flagged `low_confidence`. -/
def handle_low_confidence (ed : EngineData) (analysis : Analysis) (ctx : Ctx) :
    Response × Ctx :=
  if analysis.confidence < (0.4 : ℚ) then
    ({ status := "needs_clarification"
       clarification_questions := generate_clarification_questions ed analysis ctx },
     ctx)
  else
    ({ status := "low_confidence" }, ctx)

/-- `process_natural_language`: preprocess, extract entities, analyze
intent, then either the low-confidence path or intent execution.  (The
`analyze_context` call only contributes echo fields of the response
that no claim constrains and reads the context without writing it.) -/
def process_natural_language (ed : EngineData) (query : String) (ctx : Ctx) :
    Response × Ctx :=
  let processed_text := preprocess query
  let entities := extract_entities [] processed_text ctx
  let ia := analyze_intent processed_text entities ctx
  let analysis : Analysis :=
    { original_query := query, processed_text := processed_text,
      entities := entities, intents := ia.intents,
      primary_intent := ia.primary_intent, confidence := ia.confidence }
  if ia.confidence < ed.min_confidence then
    handle_low_confidence ed analysis ctx
  else
    let result := execute_intent ed analysis ctx false
    ({ status := if result.status ≠ "error" then "success" else "error" }, ctx)

/-- `execute_command`: validate the product (error without touching the
context), set the active product, dispatch the data call (whose result
feeds only omitted response fields) and answer `success`; an
unrecognized command letter answers `error`. -/
def execute_command (ed : EngineData) (command product_id params : String)
    (ctx : Ctx) : Response × Ctx :=
  if ¬ validate_product_id ed.dm product_id then
    ({ status := "error" }, ctx)
  else
    let ctx := { ctx with active_product_id := some product_id }
    if command = "-t" ∨ command = "-c" ∨ command = "-s" ∨ command = "-f" then
      ({ status := "success" }, ctx)
    else
      ({ status := "error" }, ctx)

/-- `process_input`: strip the input, append it to the caller's
`query_history`, then either the structured-command fast path or the
natural-language path. -/
def process_input (ed : EngineData) (user_input : String) (ctx : Ctx) :
    Response × Ctx :=
  let input := pyStrip user_input
  let ctx := { ctx with query_history := ctx.query_history ++ [input] }
  match parseCommand input with
  | some (command, product_id, params) =>
    execute_command ed command product_id (pyStrip params) ctx
  | none => process_natural_language ed input ctx

lemma process_natural_language_ctx (ed : EngineData) (q : String) (c : Ctx) :
    (process_natural_language ed q c).2 = c := by
  simp only [process_natural_language]
  split
  · unfold handle_low_confidence
    split <;> rfl
  · rfl

lemma execute_command_ctx (ed : EngineData) (command product_id params : String)
    (c : Ctx) :
    (execute_command ed command product_id params c).2 =
      (if validate_product_id ed.dm product_id
       then { c with active_product_id := some product_id } else c) := by
  simp only [execute_command]
  by_cases h : validate_product_id ed.dm product_id = true
  · rw [if_neg (not_not_intro h), if_pos h]
    split <;> rfl
  · rw [if_pos h, if_neg h]

/-- C9 (amended): `process_input` appends the stripped input to the
caller's `query_history` (and, on the command path with a valid product,
`execute_command` overwrites `active_product_id`); `mentioned_products`,
`previous_intent` and `last_mentioned_property` are never touched by
either entry point — only `update_context` writes them. -/
theorem engine_context_mutation_frame :
    (∀ (ed : EngineData) (input : String) (ctx : Ctx),
      (process_input ed input ctx).2.query_history =
        ctx.query_history ++ [pyStrip input] ∧
      (process_input ed input ctx).2.mentioned_products = ctx.mentioned_products ∧
      (process_input ed input ctx).2.previous_intent = ctx.previous_intent ∧
      (process_input ed input ctx).2.last_mentioned_property =
        ctx.last_mentioned_property ∧
      (process_input ed input ctx).2.active_product_id =
        (match parseCommand (pyStrip input) with
         | some (_, product_id, _) =>
           if validate_product_id ed.dm product_id then some product_id
           else ctx.active_product_id
         | none => ctx.active_product_id)) ∧
    (∀ (ed : EngineData) (command product_id params : String) (ctx : Ctx),
      (execute_command ed command product_id params ctx).2 =
        (if validate_product_id ed.dm product_id
         then { ctx with active_product_id := some product_id } else ctx)) := by
  constructor
  · intro ed input ctx
    simp only [process_input]
    cases hp : parseCommand (pyStrip input) with
    | none =>
      simp only [hp]
      rw [process_natural_language_ctx]
      exact ⟨rfl, rfl, rfl, rfl, rfl⟩
    | some triple =>
      obtain ⟨command, product_id, params⟩ := triple
      simp only [hp]
      rw [execute_command_ctx]
      by_cases hv : validate_product_id ed.dm product_id = true
      · simp [hv]
      · simp only [Bool.not_eq_true] at hv
        simp [hv]
  · exact execute_command_ctx

/-- Witness for C9 (amended): a natural-language input on an engine with
an empty corpus. -/
theorem engine_context_mutation_frame_witness :
    (process_input {} "hej" { mentioned_products := ["A"] }).2.query_history =
      [] ++ [pyStrip "hej"] ∧
    (process_input {} "hej" { mentioned_products := ["A"] }).2.mentioned_products =
      ["A"] :=
  ⟨(engine_context_mutation_frame.1 {} "hej" { mentioned_products := ["A"] }).1,
   (engine_context_mutation_frame.1 {} "hej" { mentioned_products := ["A"] }).2.1⟩

def dmOneProduct : DataM := { products := [("X", {})] }

/-- Counterexample to C9 as stated: `process_input` itself appends to
the passed context's `query_history` (engine.py lines 93–96) and, via
`execute_command` on a valid product, overwrites `active_product_id`
(line 136). -/
theorem process_input_mutates_context :
    (process_input { dm := dmOneProduct } "-t X" {}).2.query_history = ["-t X"] ∧
    ["-t X"] ≠ ([] : List String) ∧
    (process_input { dm := dmOneProduct } "-t X" {}).2.active_product_id = some "X" ∧
    some "X" ≠ (none : Option String) := by
  exact ⟨rfl, by decide, rfl, by decide⟩

/-! ## The ambiguous one-word query "info" (claim C8)
The session context is empty and no NLP model is loaded (the engine's
default when neither spaCy nor transformers is installed); the corpus is
empty as well, so no product resolves. -/

/-- The context as it stands after `process_input` appended "info". -/
def ctxInfo : Ctx := { query_history := ["info"] }

lemma kw_info_eval : detect_intent_keywords "info" =
    [("technical", 0), ("compatibility", 0), ("summary", (0.1 : ℚ)), ("search", 0)] := rfl

lemma ent_info_eval : detect_entity_based_intent [] =
    [("technical", 0), ("compatibility", 0), ("summary", (0.2 : ℚ)), ("search", 0)] := by
  norm_num [detect_entity_based_intent]

lemma ctxb_info_eval : detect_context_based_intent ctxInfo =
    [("technical", 0), ("compatibility", 0), ("summary", 0), ("search", 0)] := by
  simp [detect_context_based_intent, ctxInfo, truthyOpt]

lemma comb_info_eval : combine_intent_scores
    [("technical", 0), ("compatibility", 0), ("summary", (0.1 : ℚ)), ("search", 0)]
    [("technical", 0), ("compatibility", 0), ("summary", 0), ("search", 0)]
    [("technical", 0), ("compatibility", 0), ("summary", (0.2 : ℚ)), ("search", 0)]
    [("technical", 0), ("compatibility", 0), ("summary", 0), ("search", 0)] =
    [("technical", 0), ("compatibility", 0), ("summary", (17/200 : ℚ)), ("search", 0)] := by
  have h : combine_intent_scores
      [("technical", 0), ("compatibility", 0), ("summary", (0.1 : ℚ)), ("search", 0)]
      [("technical", 0), ("compatibility", 0), ("summary", 0), ("search", 0)]
      [("technical", 0), ("compatibility", 0), ("summary", (0.2 : ℚ)), ("search", 0)]
      [("technical", 0), ("compatibility", 0), ("summary", 0), ("search", 0)] =
      [("technical", (0 : ℚ) * mkRat 35 100 + 0 * mkRat 30 100 + 0 * mkRat 25 100 + 0 * mkRat 10 100),
       ("compatibility", (0 : ℚ) * mkRat 35 100 + 0 * mkRat 30 100 + 0 * mkRat 25 100 + 0 * mkRat 10 100),
       ("summary", (0.1 : ℚ) * mkRat 35 100 + 0 * mkRat 30 100 + (0.2 : ℚ) * mkRat 25 100 + 0 * mkRat 10 100),
       ("search", (0 : ℚ) * mkRat 35 100 + 0 * mkRat 30 100 + 0 * mkRat 25 100 + 0 * mkRat 10 100)] := rfl
  rw [h]
  norm_num [Rat.mkRat_eq_divInt, Rat.divInt_eq_div]

lemma det_info_eval : determine_primary_intent
    [("technical", 0), ("compatibility", 0), ("summary", (17/200 : ℚ)), ("search", 0)] =
    ("summary", (17/250 : ℚ)) := by
  norm_num [determine_primary_intent, maxPair, sortScoresDesc, List.insertionSort,
    List.orderedInsert, qGE, Rat.mkRat_eq_divInt, Rat.divInt_eq_div]

lemma ia_info_eval : analyze_intent "info" [] ctxInfo =
    { intents := [("summary", (17/200 : ℚ)), ("technical", 0), ("compatibility", 0), ("search", 0)]
      primary_intent := "summary"
      confidence := (17/250 : ℚ)
      keyword_based := [("technical", 0), ("compatibility", 0), ("summary", (0.1 : ℚ)), ("search", 0)]
      semantic_based := [("technical", 0), ("compatibility", 0), ("summary", 0), ("search", 0)]
      entity_based := [("technical", 0), ("compatibility", 0), ("summary", (0.2 : ℚ)), ("search", 0)]
      context_based := [("technical", 0), ("compatibility", 0), ("summary", 0), ("search", 0)] } := by
  simp only [analyze_intent]
  rw [kw_info_eval, ent_info_eval, ctxb_info_eval,
    show detect_semantic_intent =
      [("technical", 0), ("compatibility", 0), ("summary", 0), ("search", 0)] from rfl,
    comb_info_eval, det_info_eval]
  norm_num [List.insertionSort, List.orderedInsert, pairScoreGE,
    Rat.mkRat_eq_divInt, Rat.divInt_eq_div]

def analysisInfo : Analysis :=
  { original_query := "info", processed_text := "info", entities := [],
    intents := [("summary", (17/200 : ℚ)), ("technical", 0), ("compatibility", 0), ("search", 0)],
    primary_intent := "summary", confidence := (17/250 : ℚ) }

def intentQuestion : Question :=
  { type_ := "intent_selection"
    text := "Vad vill du veta om produkten?"
    options := [("technical", "Tekniska specifikationer"),
                ("compatibility", "Kompatibilitetsinformation"),
                ("summary", "Allmän produktinformation"),
                ("search", "Sök efter produkter")] }

lemma gcq_info_eval :
    generate_clarification_questions {} analysisInfo ctxInfo = [intentQuestion] := by
  simp only [generate_clarification_questions, strInEntityList, analysisInfo]
  norm_num [intentQuestion]

lemma pnl_info_eval :
    process_natural_language {} "info" ctxInfo =
      ({ status := "needs_clarification",
         clarification_questions := [intentQuestion] }, ctxInfo) := by
  simp only [process_natural_language]
  rw [show preprocess "info" = "info" from rfl]
  rw [show extract_entities [] "info" ctxInfo = [] from rfl]
  rw [ia_info_eval]
  rw [if_pos (by norm_num : (17/250 : ℚ) < ({} : EngineData).min_confidence)]
  simp only [handle_low_confidence]
  rw [if_pos (by norm_num : (17/250 : ℚ) < (0.4 : ℚ))]
  rw [show ({ original_query := "info", processed_text := "info", entities := [],
              intents := [("summary", (17/200 : ℚ)), ("technical", 0),
                          ("compatibility", 0), ("search", 0)],
              primary_intent := "summary",
              confidence := (17/250 : ℚ) } : Analysis) = analysisInfo from rfl]
  rw [gcq_info_eval]

lemma pi_info_eval :
    process_input {} "info" {} =
      ({ status := "needs_clarification",
         clarification_questions := [intentQuestion] }, ctxInfo) := by
  simp only [process_input]
  rw [show pyStrip "info" = "info" from rfl]
  rw [show parseCommand "info" = none from rfl]
  exact pnl_info_eval

/-- C8: the one-word query "info" in an empty session (no active
product, no history, no loaded NLP models, nothing to resolve against)
scores only the keyword default 0.1 and the no-entity nudge 0.2, giving
a damped confidence of 0.068 < 0.4, so `process_input` answers with
status "needs_clarification" and an "intent_selection" clarification
question. -/
theorem info_query_needs_clarification :
    (process_input {} "info" {}).1.status = "needs_clarification" ∧
    ∃ q ∈ (process_input {} "info" {}).1.clarification_questions,
      q.type_ = "intent_selection" := by
  rw [pi_info_eval]
  exact ⟨rfl, ⟨intentQuestion, by simp, rfl⟩⟩

end NlpBot
